import Mathlib

/-!
# A shallow embedding of the dtn7 bundle processing pipeline

This file embeds the core bundle-processing pipeline of the dtn7 BPv7
agent (package `core`, file with `transmit`, `receive`, `dispatching`,
`forward`, `localDelivery`, `checkAdministrativeRecord`,
`inspectStatusReport`, `bundleContraindicated`, `bundleDeletion`) together
with the `BundleBuilder.Build` method of the `bundle` package, and proves
the behavioural properties stated about them.

Modelling conventions:

* Go machine integers are modelled as `Nat`; no arithmetic in the embedded
  code can overflow behaviourally (hop counts, ages and lifetimes are
  compared, never wrapped).
* The Go `BundlePack` carries a pointer to its `Bundle`, shared with the
  copy held by the store, so in-place mutations of the bundle's canonical
  blocks are visible in the store without a push.  `Core.mutateBlocks`
  models this: it rewrites the in-flight pack and the store entries of the
  same identity at once.  Constraint changes are always followed by a
  `store.Push` in the source, so constraints are modelled by value.
* Side effects on collaborators (status-report emission, CLA send / close /
  register, agent delivery, routing notification) are recorded in an
  ordered event log carried by the `Core` state.
* The goroutine fan-out over candidate senders joins all attempts before
  the pipeline continues and combines success as a monotone OR; it is
  modelled as a left fold, one linearisation of the concurrent execution.
* Functions of this repository that the pipeline calls but whose bodies are
  not part of the sources at hand are modelled from the specification; each
  such definition carries a doc comment starting with `Modelled from the
  spec:`.
-/

set_option linter.unusedVariables false

namespace Dtn7

/-! ## Endpoint identifiers -/

/-- An endpoint identifier: a scheme code together with the scheme-specific
part.  The zero value (scheme `0`, empty SSP) is the unset endpoint, the
`EndpointID{}` of the Go source. -/
structure EndpointID where
  schemeName : Nat
  ssp : String
deriving DecidableEq, Repr, Inhabited

/-- The distinguished `dtn:none` endpoint. -/
def DtnNone : EndpointID := ⟨1, "none"⟩

/-! ## Control flags

Bundle processing control flags and block processing control flags are
bitfields; `hasFlag` is the `Has` test of the source. -/

/-- Bitfield membership test: `flags.Has(flag)` of the Go source. -/
def hasFlag (flags flag : Nat) : Bool := flags &&& flag != 0

/-- Bundle control flag: the bundle is a fragment. -/
def BundleIsAFragment : Nat := 1
/-- Bundle control flag: the payload is an administrative record. -/
def AdministrativeRecordPayload : Nat := 2
/-- Bundle control flag: request a reception status report. -/
def StatusRequestReception : Nat := 16384
/-- Bundle control flag: request a forwarding status report. -/
def StatusRequestForward : Nat := 65536
/-- Bundle control flag: request a delivery status report. -/
def StatusRequestDelivery : Nat := 131072
/-- Bundle control flag: request a deletion status report. -/
def StatusRequestDeletion : Nat := 262144

/-- Block control flag: replicate this block in every fragment. -/
def ReplicateBlock : Nat := 1
/-- Block control flag: report status if this block cannot be processed. -/
def StatusReportBlock : Nat := 2
/-- Block control flag: delete the bundle if this block cannot be
processed. -/
def DeleteBundle : Nat := 4
/-- Block control flag: remove this block if it cannot be processed. -/
def RemoveBlock : Nat := 16

/-! ## Status reports -/

/-- The status information items carried by a bundle status report.  Codes
outside the four defined ones fall into `unknownInformation`, the default
arm of the source's switch. -/
inductive StatusInformation
  | receivedBundle
  | forwardedBundle
  | deliveredBundle
  | deletedBundle
  | unknownInformation (code : Nat)
deriving DecidableEq, Repr

/-- Status report reason codes. -/
inductive StatusReportReason
  | noInformation
  | lifetimeExpired
  | forwardedUnidirectionalLink
  | transmissionCanceled
  | depletedStorage
  | destinationEndpointUnintelligible
  | noRouteToDestination
  | noTimelyContact
  | blockUnintelligible
  | hopLimitExceeded
  | trafficPared
deriving DecidableEq, Repr

/-- A bundle identity: source endpoint, creation timestamp, and — only for
fragments — fragment offset and total application data length. -/
structure BundleID where
  source : EndpointID
  timestampTime : Nat
  timestampSeq : Nat
  isFragment : Bool
  fragmentOffset : Nat
  totalDataLength : Nat
deriving DecidableEq, Repr

/-- The content of a bundle status report: the asserted status information
items, the reason code, and the subject bundle's identity. -/
structure StatusReport where
  statusInformations : List StatusInformation
  reportReason : StatusReportReason
  refBundle : BundleID
deriving DecidableEq, Repr

/-- An administrative record: a record-type discriminator and, for status
reports (record type 1), the report content. -/
structure AdministrativeRecord where
  typeCode : Nat
  content : StatusReport
deriving DecidableEq, Repr

/-! ## Blocks and bundles -/

/-- Payload bytes as handed over by the external CBOR codec.  The codec is
an external collaborator; its output is modelled as either a decodable
administrative record or undecodable raw bytes. -/
inductive CborData
  | adminRecord (ar : AdministrativeRecord)
  | raw (bytes : List Nat)
deriving DecidableEq, Repr

/-- A hop count block's payload: a limit and the current count. -/
structure HopCount where
  limit : Nat
  count : Nat
deriving DecidableEq, Repr

/-- `hc.Increment()` of the source: bump the count by one. -/
def HopCount.Increment (hc : HopCount) : HopCount :=
  { hc with count := hc.count + 1 }

/-- `hc.IsExceeded()` of the source: the count exceeds the limit. -/
def HopCount.IsExceeded (hc : HopCount) : Bool := hc.count > hc.limit

/-- The typed payload of a canonical block, keyed by block type.  The Go
source stores an `interface\x7b\x7d` and casts at the use sites; the tagged
variant makes the same shapes explicit. -/
inductive BlockData
  | hopCountData (hc : HopCount)
  | bundleAgeData (age : Nat)
  | previousNodeData (prev : EndpointID)
  | payloadData (content : CborData)
  | unknownData (bytes : List Nat)
deriving DecidableEq, Repr

/-- A canonical block. -/
structure CanonicalBlock where
  blockType : Nat
  blockNumber : Nat
  blockControlFlags : Nat
  crcType : Nat
  data : BlockData
deriving DecidableEq, Repr

/-- Block type code of the payload block. -/
def PayloadBlockType : Nat := 1
/-- Block type code of the previous node block. -/
def PreviousNodeBlockType : Nat := 6
/-- Block type code of the bundle age block. -/
def BundleAgeBlockType : Nat := 7
/-- Block type code of the hop count block. -/
def HopCountBlockType : Nat := 10

/-- Modelled from the spec: `isKnownBlockType` of the `core` package is not
among the sources at hand; the node recognises the payload, previous-node,
bundle-age and hop-count block types. -/
def isKnownBlockType (t : Nat) : Bool :=
  t == PayloadBlockType || t == PreviousNodeBlockType ||
  t == BundleAgeBlockType || t == HopCountBlockType

/-- A creation timestamp: DTN time and a sequence number. -/
structure CreationTimestamp where
  time : Nat
  sequenceNumber : Nat
deriving DecidableEq, Repr, Inhabited

/-- The primary block, with the fields of the source's `PrimaryBlock`. -/
structure PrimaryBlock where
  version : Nat
  bundleControlFlags : Nat
  crcType : Nat
  destination : EndpointID
  sourceNode : EndpointID
  reportTo : EndpointID
  creationTimestamp : CreationTimestamp
  lifetime : Nat
  fragmentOffset : Nat
  totalDataLength : Nat
  crc : Nat
deriving DecidableEq, Repr, Inhabited

/-- A bundle: the primary block and the canonical blocks. -/
structure Bundle where
  primaryBlock : PrimaryBlock
  canonicalBlocks : List CanonicalBlock
deriving DecidableEq, Repr

/-- `bndl.IsAdministrativeRecord()`: the control flags mark the payload as
an administrative record. -/
def Bundle.IsAdministrativeRecord (b : Bundle) : Bool :=
  hasFlag b.primaryBlock.bundleControlFlags AdministrativeRecordPayload

/-- `bndl.ExtensionBlock(t)`: the first canonical block of type `t`,
`none` when absent (the source returns an error then). -/
def Bundle.ExtensionBlock (b : Bundle) (t : Nat) : Option CanonicalBlock :=
  b.canonicalBlocks.find? (fun cb => cb.blockType == t)

/-- `bndl.PayloadBlock()`: the payload block, when present. -/
def Bundle.PayloadBlock (b : Bundle) : Option CanonicalBlock :=
  b.ExtensionBlock PayloadBlockType

/-- The hop count carried by the bundle's hop count block, when present
with hop-count-shaped data. -/
def Bundle.hopCount (b : Bundle) : Option HopCount :=
  match b.ExtensionBlock HopCountBlockType with
  | some cb =>
    match cb.data with
    | .hopCountData hc => some hc
    | _ => none
  | none => none

/-- The age carried by the bundle's bundle age block, when present with
age-shaped data. -/
def Bundle.bundleAge (b : Bundle) : Option Nat :=
  match b.ExtensionBlock BundleAgeBlockType with
  | some cb =>
    match cb.data with
    | .bundleAgeData age => some age
    | _ => none
  | none => none

/-- Rewrite the data of the first block of type `t`, leaving every other
block untouched: the in-place `block.Data = ...` writes of the source. -/
def updateBlockData (blocks : List CanonicalBlock) (t : Nat)
    (f : BlockData → BlockData) : List CanonicalBlock :=
  match blocks with
  | [] => []
  | cb :: rest =>
    if cb.blockType == t then { cb with data := f cb.data } :: rest
    else cb :: updateBlockData rest t f

/-- The bundle's identity.  The fragment fields participate only when the
bundle is a fragment. -/
def Bundle.id (b : Bundle) : BundleID :=
  let pb := b.primaryBlock
  if hasFlag pb.bundleControlFlags BundleIsAFragment then
    ⟨pb.sourceNode, pb.creationTimestamp.time, pb.creationTimestamp.sequenceNumber,
      true, pb.fragmentOffset, pb.totalDataLength⟩
  else
    ⟨pb.sourceNode, pb.creationTimestamp.time, pb.creationTimestamp.sequenceNumber,
      false, 0, 0⟩

/-- Modelled from the spec: `PrimaryBlock.IsLifetimeExceeded` of the
`bundle` package is not among the sources at hand.  The predicate is
`creation time + lifetime < now`; it is a method of the primary block
alone, so the bundle-age block of the enclosing bundle takes part only in
the separate age check that the forward stage runs afterwards. -/
def PrimaryBlock.IsLifetimeExceeded (pb : PrimaryBlock) (now : Nat) : Bool :=
  pb.creationTimestamp.time + pb.lifetime < now

/-- Modelled from the spec: `NewAdministrativeRecordFromCbor` of the `core`
package is not among the sources at hand.  Decoding succeeds exactly on
payloads the external codec can parse as an administrative record. -/
def NewAdministrativeRecordFromCbor (content : CborData) :
    Option AdministrativeRecord :=
  match content with
  | .adminRecord ar => some ar
  | .raw _ => none

/-- The administrative record carried by the bundle's payload:
`PayloadBlock()` followed by the byte cast and
`NewAdministrativeRecordFromCbor`, `none` on any failure.  This composition
is the failure condition of `checkAdministrativeRecord`. -/
def Bundle.adminRecord (b : Bundle) : Option AdministrativeRecord :=
  match b.PayloadBlock with
  | none => none
  | some cb =>
    match cb.data with
    | .payloadData content => NewAdministrativeRecordFromCbor content
    | _ => none

/-! ## BundlePack, constraints, store -/

/-- The processing constraints of a `BundlePack`. -/
inductive Constraint
  | dispatchPending
  | forwardPending
  | reassemblyPending
  | contraindicated
  | localEndpoint
deriving DecidableEq, Repr

/-- The pipeline envelope around a bundle: the bundle, the receive time
stamped at ingress, and the constraint set. -/
structure BundlePack where
  bundle : Bundle
  receiveTime : Nat
  constraints : List Constraint
deriving DecidableEq, Repr

/-- The pack's bundle identity. -/
def BundlePack.id (bp : BundlePack) : BundleID := bp.bundle.id

/-- `bp.AddConstraint(c)`: add a constraint, idempotently. -/
def BundlePack.AddConstraint (bp : BundlePack) (c : Constraint) : BundlePack :=
  if c ∈ bp.constraints then bp
  else { bp with constraints := bp.constraints ++ [c] }

/-- `bp.RemoveConstraint(c)`: drop a constraint. -/
def BundlePack.RemoveConstraint (bp : BundlePack) (c : Constraint) : BundlePack :=
  { bp with constraints := bp.constraints.filter (fun x => x != c) }

/-- `bp.PurgeConstraints()`: empty the constraint set; the pack becomes
eligible for garbage collection. -/
def BundlePack.PurgeConstraints (bp : BundlePack) : BundlePack :=
  { bp with constraints := [] }

/-- The store: the packs currently held, keyed by bundle identity. -/
abbrev Store := List BundlePack

/-- `store.Push(bp)`: upsert by bundle identity — replace the entries of
the same identity, append otherwise. -/
def Store.Push (s : Store) (bp : BundlePack) : Store :=
  if s.any (fun p => p.id == bp.id) then
    s.map (fun p => if p.id == bp.id then bp else p)
  else s ++ [bp]

/-- `KnowsBundle(store, bp)`: some pack of the same identity is held. -/
def KnowsBundle (s : Store) (bp : BundlePack) : Bool :=
  s.any (fun p => p.id == bp.id)

/-- The pack held under a given identity, if any. -/
def Store.lookupId (s : Store) (i : BundleID) : Option BundlePack :=
  s.find? (fun p => p.id == i)

/-- Modelled from the spec: `QueryFromStatusReport` of the `core` package
is not among the sources at hand; it returns the packs whose bundle
identity matches the subject of the status report. -/
def QueryFromStatusReport (s : Store) (sr : StatusReport) : List BundlePack :=
  s.filter (fun p => p.id == sr.refBundle)

/-! ## Convergence senders, events, the core state -/

/-- A convergence sender: its address, its peer endpoint, whether its
`Send` currently fails, and an instance generation distinguishing a fresh
instance at an address from an earlier one. -/
structure Sender where
  address : String
  peerEndpoint : EndpointID
  failsSend : Bool
  generation : Nat
deriving DecidableEq, Repr

/-- Modelled from the spec: the link-restart policy re-registers a fresh
sender instance constructed with the same address; the fresh instance is
the next generation at that address. -/
def freshSender (node : Sender) : Sender :=
  { node with generation := node.generation + 1 }

/-- The observable interactions of the pipeline with its collaborators, in
order of occurrence. -/
inductive Event
  | statusReportSent (subject : BundleID) (si : StatusInformation)
      (reason : StatusReportReason)
  | sendAttempt (address : String) (success : Bool)
  | senderClosed (address : String)
  | senderRemoved (address : String)
  | senderRegistered (address : String)
  | routingQueried (subject : BundleID)
  | agentDelivered (agent : EndpointID) (subject : BundleID)
  | routingNotified (subject : BundleID)
deriving DecidableEq, Repr

/-- The state of the bundle protocol agent: the store, the endpoint and
agent registries, the sender registry, the routing adapter, the
inspect-all-bundles switch, the id keeper, the clock inputs and the event
log. -/
structure Core where
  store : Store
  endpoints : List EndpointID
  agents : List EndpointID
  senders : List Sender
  routeForBundle : BundlePack → Option (List Sender) × Bool
  inspectAllBundles : Bool
  idKeeper : List (EndpointID × Nat)
  nowTime : Nat
  nodeElapsed : Nat
  events : List Event

/-- `c.HasEndpoint(eid)`: the endpoint belongs to this node. -/
def Core.HasEndpoint (c : Core) (eid : EndpointID) : Bool :=
  c.endpoints.contains eid

/-- Record an observable event. -/
def Core.emit (c : Core) (e : Event) : Core :=
  { c with events := c.events ++ [e] }

/-- `c.store.Push(bp)` threaded through the core state. -/
def Core.pushStore (c : Core) (bp : BundlePack) : Core :=
  { c with store := c.store.Push bp }

/-- Modelled from the spec: `SendStatusReport` builds a report bundle and
hands it to the node's own `transmit` entry; the emission is modelled as
the observable event naming the subject, the status item and the reason;
the report bundle's own pipeline traversal is outside this embedding. -/
def Core.SendStatusReport (c : Core) (bp : BundlePack)
    (si : StatusInformation) (reason : StatusReportReason) : Core :=
  c.emit (.statusReportSent bp.id si reason)

/-- In-place mutation of the pack's canonical blocks.  The Go pack holds a
pointer to its bundle, shared with the store's copy of the pack, so the
mutation is visible in the store without a push: the store entries of the
same identity are rewritten alongside the in-flight pack. -/
def Core.mutateBlocks (c : Core) (bp : BundlePack)
    (f : List CanonicalBlock → List CanonicalBlock) : Core × BundlePack :=
  let b := { bp.bundle with canonicalBlocks := f bp.bundle.canonicalBlocks }
  let bp2 := { bp with bundle := b }
  let st := c.store.map (fun p => if p.id == bp.id then { p with bundle := b } else p)
  ({ c with store := st }, bp2)

/-- Modelled from the spec: `senderForDestination` of the `core` package is
not among the sources at hand; a sender is eligible for a destination when
its peer endpoint equals it, and the lookup yields nil when no sender
matches. -/
def Core.senderForDestination (c : Core) (dest : EndpointID) :
    Option (List Sender) :=
  let l := c.senders.filter (fun s => s.peerEndpoint == dest)
  if l.isEmpty then none else some l

/-- Modelled from the spec: `RemoveConvergenceSender` deregisters the
sender instance. -/
def Core.RemoveConvergenceSender (c : Core) (node : Sender) : Core :=
  { c with senders := c.senders.filter (fun s => s != node),
           events := c.events ++ [.senderRemoved node.address] }

/-- Modelled from the spec: after a send failure the pipeline re-registers
a fresh sender instance constructed with the same address — the link
restart policy; registration installs the next-generation instance at the
node's address. -/
def Core.RegisterConvergenceSender (c : Core) (node : Sender) : Core :=
  { c with senders := c.senders ++ [freshSender node],
           events := c.events ++ [.senderRegistered node.address] }

/-- Modelled from the spec: `UpdateBundleAge` of the `BundlePack` is not
among the sources at hand; when a bundle age block is present its value is
raised in place by the microseconds spent at this node, and the new age is
returned. -/
def Core.UpdateBundleAge (c : Core) (bp : BundlePack) :
    Option Nat × (Core × BundlePack) :=
  match bp.bundle.bundleAge with
  | some age =>
    let newAge := age + c.nodeElapsed
    (some newAge,
      c.mutateBlocks bp (fun bs =>
        updateBlockData bs BundleAgeBlockType (fun _ => .bundleAgeData newAge)))
  | none => (none, (c, bp))

/-- Modelled from the spec: the id keeper maps each source endpoint to the
highest creation-timestamp sequence issued, and `update` assigns the next
sequence exactly when the bundle's own sequence collides with one already
seen for its source. -/
def IdKeeperUpdate (k : List (EndpointID × Nat)) (b : Bundle) :
    List (EndpointID × Nat) × Bundle :=
  let src := b.primaryBlock.sourceNode
  let seq := b.primaryBlock.creationTimestamp.sequenceNumber
  let set := fun (n : Nat) =>
    if k.any (fun p => p.1 == src) then
      k.map (fun p => if p.1 == src then (src, n) else p)
    else k ++ [(src, n)]
  match (k.find? (fun p => p.1 == src)).map (fun p => p.2) with
  | none => (set seq, b)
  | some hi =>
    if seq ≤ hi then
      (set (hi + 1),
        { b with primaryBlock := { b.primaryBlock with
            creationTimestamp := { b.primaryBlock.creationTimestamp with
              sequenceNumber := hi + 1 } } })
    else (set seq, b)

/-! ## The pipeline -/

/-- `bundleContraindicated`: add the *Contraindicated* constraint and
push. -/
def Core.bundleContraindicated (c : Core) (bp : BundlePack) : Core :=
  c.pushStore (bp.AddConstraint .contraindicated)

/-- `bundleDeletion`: emit a *DeletedBundle* status report when the primary
block requests deletion status, purge the constraints, push. -/
def Core.bundleDeletion (c : Core) (bp : BundlePack)
    (reason : StatusReportReason) : Core :=
  let c :=
    if hasFlag bp.bundle.primaryBlock.bundleControlFlags StatusRequestDeletion
    then c.SendStatusReport bp .deletedBundle reason else c
  c.pushStore bp.PurgeConstraints

/-- `inspectStatusReport`: with no status information, or with a store
query for the subject yielding anything but exactly one pack, return with
the state untouched; otherwise walk the status information items, and on
each *DeliveredBundle* purge the subject pack's constraints and push. -/
def Core.inspectStatusReport (c : Core) (ar : AdministrativeRecord) : Core :=
  let status := ar.content
  let sips := status.statusInformations
  if sips.isEmpty then c
  else
    match QueryFromStatusReport c.store status with
    | [bp] =>
      (sips.foldl (fun acc sip =>
        match sip with
        | .deliveredBundle =>
          let bp2 := acc.2.PurgeConstraints
          (acc.1.pushStore bp2, bp2)
        | _ => acc) (c, bp)).1
    | _ => c

/-- `checkAdministrativeRecord`: false when the bundle is not
administrative, when the payload block is missing, or when the payload does
not parse as an administrative record; otherwise inspect the status report
and return true. -/
def Core.checkAdministrativeRecord (c : Core) (bp : BundlePack) :
    Core × Bool :=
  if !bp.bundle.IsAdministrativeRecord then (c, false)
  else
    match bp.bundle.adminRecord with
    | none => (c, false)
    | some ar => (c.inspectStatusReport ar, true)

/-- One send attempt of the fan-out: on failure, close the sender,
deregister it and re-register a fresh instance at its address; on success,
report the attempt and signal the monotone sent flag. -/
def Core.trySend (c : Core) (bndl : Bundle) (node : Sender) : Core × Bool :=
  if node.failsSend then
    let c := c.emit (.sendAttempt node.address false)
    let c := c.emit (.senderClosed node.address)
    let c := c.RemoveConvergenceSender node
    let c := c.RegisterConvergenceSender node
    (c, false)
  else (c.emit (.sendAttempt node.address true), true)

/-- The parallel send fan-out: every candidate is attempted, the pipeline
joins all attempts, and the sent flag is the OR across attempts, set at
most once (the recursion is one linearisation of the concurrent
goroutines). -/
def fanout (bndl : Bundle) : Core → List Sender → Bool → Core × Bool
  | c, [], sent => (c, sent)
  | c, node :: rest, sent =>
    let r := c.trySend bndl node
    fanout bndl r.1 rest (sent || r.2)

/-- The fan-out tail of `forward`, once the candidate senders and the
delete-after-send hint are fixed: attempt every candidate; a sent bundle
gets its forwarding report, is purged and pushed when the send was
definitive, or — under inspect-all-bundles for an administrative bundle —
is contraindicated and inspected; an unsent bundle is contraindicated. -/
def Core.forwardFanout (c : Core) (bp : BundlePack) (ns : List Sender)
    (deleteAfterwards : Bool) : Core :=
  let fr := fanout bp.bundle c ns false
  let c := fr.1
  if fr.2 then
    let c :=
      if hasFlag bp.bundle.primaryBlock.bundleControlFlags StatusRequestForward
      then c.SendStatusReport bp .forwardedBundle .noInformation else c
    if deleteAfterwards then c.pushStore bp.PurgeConstraints
    else if c.inspectAllBundles && bp.bundle.IsAdministrativeRecord then
      let c := c.bundleContraindicated bp
      (c.checkAdministrativeRecord bp).1
    else c
  else c.bundleContraindicated bp

/-- The sender-selection step of `forward`: direct-delivery lookup first
(with delete-after-send implicitly true), the routing adapter otherwise (an
observable routing query); no candidates contraindicates; otherwise the
fan-out tail runs. -/
def Core.forwardSenders (c : Core) (bp : BundlePack) : Core :=
  match c.senderForDestination bp.bundle.primaryBlock.destination with
  | some ns => c.forwardFanout bp ns true
  | none =>
    let c := c.emit (.routingQueried bp.id)
    let r := c.routeForBundle bp
    match r.1 with
    | none => c.bundleContraindicated bp
    | some ns => c.forwardFanout bp ns r.2

/-- The bundle-age step of `forward`: update the age block when present,
and delete with *LifetimeExpired* when the updated age reaches the
lifetime. -/
def Core.forwardAge (c : Core) (bp : BundlePack) : Core :=
  let r := c.UpdateBundleAge bp
  let c := r.2.1
  let bp := r.2.2
  match r.1 with
  | some age =>
    if age ≥ bp.bundle.primaryBlock.lifetime then
      c.bundleDeletion bp .lifetimeExpired
    else c.forwardSenders bp
  | none => c.forwardSenders bp

/-- The lifetime step of `forward`: delete with *LifetimeExpired* when the
primary block's lifetime-expired predicate holds, before the age block is
touched. -/
def Core.forwardLifetime (c : Core) (bp : BundlePack) : Core :=
  if bp.bundle.primaryBlock.IsLifetimeExceeded c.nowTime then
    c.bundleDeletion bp .lifetimeExpired
  else c.forwardAge bp

/-- `forward`: swap *DispatchPending* for *ForwardPending* and push; then
increment the hop count block in place when present and delete with
*HopLimitExceeded* when exceeded; then the lifetime check; then the
bundle-age check; then sender selection and the fan-out. -/
def Core.forward (c : Core) (bp : BundlePack) : Core :=
  let bp := (bp.AddConstraint .forwardPending).RemoveConstraint .dispatchPending
  let c := c.pushStore bp
  match bp.bundle.hopCount with
  | some hc =>
    let hc2 := hc.Increment
    let r := c.mutateBlocks bp (fun bs =>
      updateBlockData bs HopCountBlockType (fun _ => .hopCountData hc2))
    let c := r.1
    let bp := r.2
    if hc2.IsExceeded then c.bundleDeletion bp .hopLimitExceeded
    else c.forwardLifetime bp
  | none => c.forwardLifetime bp

/-- The agent-delivery tail of `localDelivery`: deliver to every agent
registered at the destination, notify the routing adapter, emit the
delivery report when requested, purge and push. -/
def Core.localDeliveryAgents (c : Core) (bp : BundlePack) : Core :=
  let c := c.agents.foldl (fun c a =>
    if a == bp.bundle.primaryBlock.destination then
      c.emit (.agentDelivered a bp.id)
    else c) c
  let c := c.emit (.routingNotified bp.id)
  let c :=
    if hasFlag bp.bundle.primaryBlock.bundleControlFlags StatusRequestDelivery
    then c.SendStatusReport bp .deliveredBundle .noInformation else c
  c.pushStore bp.PurgeConstraints

/-- `localDelivery`: an administrative bundle first runs
administrative-record processing and is deleted with *NoInformation* when
that fails; otherwise agents are served. -/
def Core.localDelivery (c : Core) (bp : BundlePack) : Core :=
  if bp.bundle.IsAdministrativeRecord then
    let r := c.checkAdministrativeRecord bp
    if r.2 then r.1.localDeliveryAgents bp
    else r.1.bundleDeletion bp .noInformation
  else c.localDeliveryAgents bp

/-- `dispatching`: local delivery when the destination is an endpoint of
this node, forwarding otherwise. -/
def Core.dispatching (c : Core) (bp : BundlePack) : Core :=
  if c.HasEndpoint bp.bundle.primaryBlock.destination then c.localDelivery bp
  else c.forward bp

/-- The outcome of the canonical-block walk of `receive`: either the bundle
is to be deleted (with the blocks as mutated so far), or the walk is done
and these blocks survive. -/
inductive WalkOutcome
  | walkDeleted (blocks : List CanonicalBlock)
  | walkDone (blocks : List CanonicalBlock)
deriving DecidableEq, Repr

/-- The canonical-block walk of `receive`, from the highest index down to
the lowest: `rev` holds the unvisited blocks in reverse order (the head is
the highest-indexed unvisited block) and `suffix` the visited survivors.
An unknown-typed block may request a reception report, then bundle deletion
(which stops the walk), then its own removal. -/
def receiveWalk (bp : BundlePack) :
    Core → List CanonicalBlock → List CanonicalBlock → Core × WalkOutcome
  | c, [], suffix => (c, .walkDone suffix)
  | c, cb :: rest, suffix =>
    if isKnownBlockType cb.blockType then
      receiveWalk bp c rest (cb :: suffix)
    else
      let c :=
        if hasFlag cb.blockControlFlags StatusReportBlock then
          c.SendStatusReport bp .receivedBundle .blockUnintelligible
        else c
      if hasFlag cb.blockControlFlags DeleteBundle then
        (c, .walkDeleted (rest.reverse ++ cb :: suffix))
      else if hasFlag cb.blockControlFlags RemoveBlock then
        receiveWalk bp c rest suffix
      else receiveWalk bp c rest (cb :: suffix)

/-- `receive`: a known identity is dropped silently (no deletion, which
would evict the stored pack); otherwise *DispatchPending* is added and
pushed, a reception report is emitted when requested, the canonical blocks
are walked from the highest index to the lowest, and the bundle is
dispatched (or deleted with *BlockUnintelligible* when the walk says
so). -/
def Core.receive (c : Core) (bp : BundlePack) : Core :=
  if KnowsBundle c.store bp then c
  else
    let bp := bp.AddConstraint .dispatchPending
    let c := c.pushStore bp
    let c :=
      if hasFlag bp.bundle.primaryBlock.bundleControlFlags StatusRequestReception
      then c.SendStatusReport bp .receivedBundle .noInformation else c
    let w := receiveWalk bp c bp.bundle.canonicalBlocks.reverse []
    match w.2 with
    | .walkDeleted blocks =>
      let r := w.1.mutateBlocks bp (fun _ => blocks)
      r.1.bundleDeletion r.2 .blockUnintelligible
    | .walkDone blocks =>
      let r := w.1.mutateBlocks bp (fun _ => blocks)
      r.1.dispatching r.2

/-- `transmit`: reconcile the identity through the id keeper, add
*DispatchPending* and push; a source that is neither `dtn:none` nor an
endpoint of this node is deleted with *NoInformation*; otherwise
dispatch. -/
def Core.transmit (c : Core) (bp : BundlePack) : Core :=
  let r := IdKeeperUpdate c.idKeeper bp.bundle
  let c := { c with idKeeper := r.1 }
  let bp := { bp with bundle := r.2 }
  let bp := bp.AddConstraint .dispatchPending
  let c := c.pushStore bp
  let src := bp.bundle.primaryBlock.sourceNode
  if src != DtnNone && !(c.HasEndpoint src) then
    c.bundleDeletion bp .noInformation
  else c.dispatching bp

/-- `SendBundle`: wrap the outbound bundle in a fresh pack and transmit. -/
def Core.SendBundle (c : Core) (b : Bundle) : Core :=
  c.transmit ⟨b, c.nowTime, []⟩

/-! ## The bundle builder -/

/-- The `BundleBuilder` of the `bundle` package: a possible earlier error,
the primary block under construction, the canonical blocks, the counter
handing out block numbers, and the CRC type to stamp. -/
structure BundleBuilder where
  errMsg : Option String
  primary : PrimaryBlock
  canonicals : List CanonicalBlock
  canonicalCounter : Nat
  crcType : Nat
deriving DecidableEq, Repr

/-- Modelled from the spec: `NewBundle` of the `bundle` package is not
among the sources at hand, but `Build` visibly propagates its error, so
the assembly is fallible: it validates the assembled bundle, and the spec's
endpoint rule — *dtn:none* "is legal as a source (anonymous bundle) but
never as a destination" — rejects a `dtn:none` destination, which is not
the zero endpoint and thus passes `Build`'s own unset check. -/
def NewBundle (pb : PrimaryBlock) (cs : List CanonicalBlock) :
    Except String Bundle :=
  if pb.destination == DtnNone then
    .error "dtn:none is not a valid destination"
  else .ok ⟨pb, cs⟩

/-- Modelled from the spec: `SetCRCType` stamps the chosen CRC type on the
primary block and every canonical block. -/
def Bundle.SetCRCType (b : Bundle) (t : Nat) : Bundle :=
  { b with
    primaryBlock := { b.primaryBlock with crcType := t },
    canonicalBlocks := b.canonicalBlocks.map (fun cb => { cb with crcType := t }) }

/-- `Build`: an earlier builder error is surfaced; an unset report-to
defaults to the source node; then source and destination must both be set,
and the bundle is assembled — an assembly error propagates — and
CRC-stamped.  The CRC value computation belongs to the external codec and
is not part of this model. -/
def BundleBuilder.Build (bldr : BundleBuilder) : Except String Bundle :=
  match bldr.errMsg with
  | some e => .error e
  | none =>
    let primary :=
      if bldr.primary.reportTo == (default : EndpointID) then
        { bldr.primary with reportTo := bldr.primary.sourceNode }
      else bldr.primary
    if primary.sourceNode == (default : EndpointID) ||
       primary.destination == (default : EndpointID) then
      .error "Both Source and Destination must be set"
    else
      match NewBundle primary bldr.canonicals with
      | .error e => .error e
      | .ok b => .ok (b.SetCRCType bldr.crcType)

/-! ## Derived notions used by the statements -/

/-- Whether the store holds a pack of the given identity. -/
def Store.knowsId (s : Store) (i : BundleID) : Bool :=
  s.any (fun p => p.id == i)

/-- The bundle after the forward stage's hop-count step: the hop count
block's count is raised by one when the block is present. -/
def hopStep (b : Bundle) : Bundle :=
  match b.hopCount with
  | some hc =>
    let cs := updateBlockData b.canonicalBlocks HopCountBlockType
      (fun _ => .hopCountData hc.Increment)
    { b with canonicalBlocks := cs }
  | none => b

/-- The bundle after the forward stage's bundle-age update: the age block
is raised by the node-residence time when present. -/
def ageStep (b : Bundle) (elapsed : Nat) : Bundle :=
  match b.bundleAge with
  | some age =>
    let cs := updateBlockData b.canonicalBlocks BundleAgeBlockType
      (fun _ => .bundleAgeData (age + elapsed))
    { b with canonicalBlocks := cs }
  | none => b

/-- The events a deletion of this pack appends: the *DeletedBundle* report
exactly when the primary block requests deletion status. -/
def deletionEvents (bp : BundlePack) (reason : StatusReportReason) : List Event :=
  if hasFlag bp.bundle.primaryBlock.bundleControlFlags StatusRequestDeletion
  then [.statusReportSent bp.id .deletedBundle reason] else []

/-- The events one send attempt appends: the attempt itself and, on
failure, the close / deregister / fresh re-register triple of the link
restart policy, in that order. -/
def sendEvents (n : Sender) : List Event :=
  if n.failsSend then
    [.sendAttempt n.address false, .senderClosed n.address,
      .senderRemoved n.address, .senderRegistered n.address]
  else [.sendAttempt n.address true]

/-- Iterated passes through the forward stage: each pass runs `forward` and
picks up the pack the store then holds under the bundle's identity. -/
def Core.forwardIter (c : Core) (bp : BundlePack) : Nat → Core × BundlePack
  | 0 => (c, bp)
  | n + 1 =>
    let r := c.forwardIter bp n
    let c2 := r.1.forward r.2
    (c2, (c2.store.lookupId r.2.id).getD r.2)

/-! ## Sample values

Concrete nodes, bundles and packs on which the theorems below are
instantiated. -/

/-- An endpoint of the sample node. -/
def sampleEid : EndpointID := ⟨1, "//node/"⟩

/-- A peer's endpoint. -/
def peerEid : EndpointID := ⟨1, "//peer/"⟩

/-- A third endpoint, neither this node's nor the peer's. -/
def otherEid : EndpointID := ⟨1, "//other/"⟩

/-- A routing adapter that never finds a candidate. -/
def sampleRouting : BundlePack → Option (List Sender) × Bool :=
  fun _ => (none, false)

/-- A primary block from the third endpoint towards the peer. -/
def samplePrimary : PrimaryBlock :=
  { version := 7, bundleControlFlags := 0, crcType := 0,
    destination := peerEid, sourceNode := otherEid, reportTo := otherEid,
    creationTimestamp := ⟨100, 1⟩, lifetime := 50,
    fragmentOffset := 0, totalDataLength := 0, crc := 0 }

/-- A sample node: one own endpoint, no agents, no senders, an empty store,
a routing adapter that never answers. -/
def sampleCore : Core :=
  { store := [], endpoints := [sampleEid], agents := [], senders := [],
    routeForBundle := sampleRouting, inspectAllBundles := false,
    idKeeper := [], nowTime := 0, nodeElapsed := 0, events := [] }

/-- A sample bundle without canonical blocks. -/
def sampleBundle : Bundle := ⟨samplePrimary, []⟩

/-- The sample bundle wrapped as a pack. -/
def samplePack : BundlePack := ⟨sampleBundle, 0, []⟩

/-- A primary block of an administrative bundle addressed to this node. -/
def adminPrimary : PrimaryBlock :=
  { version := 7, bundleControlFlags := AdministrativeRecordPayload,
    crcType := 0, destination := sampleEid, sourceNode := otherEid,
    reportTo := otherEid, creationTimestamp := ⟨100, 1⟩, lifetime := 50,
    fragmentOffset := 0, totalDataLength := 0, crc := 0 }

/-- An administrative bundle whose payload block is missing, so its
administrative record cannot be obtained. -/
def adminBundle : Bundle := ⟨adminPrimary, []⟩

/-- The broken administrative bundle wrapped as a pack. -/
def adminPack : BundlePack := ⟨adminBundle, 0, []⟩

/-- A failing sender towards the peer. -/
def failSender : Sender :=
  { address := "mtcp://a:4556", peerEndpoint := peerEid,
    failsSend := true, generation := 0 }

/-- A working sender towards the peer. -/
def okSender : Sender :=
  { address := "mtcp://b:4556", peerEndpoint := peerEid,
    failsSend := false, generation := 0 }

/-- A hop count block with limit one and count one. -/
def hopBlock : CanonicalBlock :=
  ⟨HopCountBlockType, 2, 0, 0, .hopCountData ⟨1, 1⟩⟩

/-- A bundle age block carrying ten microseconds. -/
def ageBlock : CanonicalBlock :=
  ⟨BundleAgeBlockType, 3, 0, 0, .bundleAgeData 10⟩

/-- A fresh builder holding the sample primary block. -/
def sampleBuilder : BundleBuilder :=
  { errMsg := none, primary := samplePrimary, canonicals := [],
    canonicalCounter := 1, crcType := 0 }

/-- A builder whose report-to endpoint is still unset. -/
def defaultReportBuilder : BundleBuilder :=
  { errMsg := none, primary := { samplePrimary with reportTo := default },
    canonicals := [], canonicalCounter := 1, crcType := 0 }

/-- A builder whose source and destination are both set — the destination
to the `dtn:none` sentinel, which is not the zero endpoint. -/
def noneDestBuilder : BundleBuilder :=
  { errMsg := none, primary := { samplePrimary with destination := DtnNone },
    canonicals := [], canonicalCounter := 1, crcType := 0 }

/-- A status report asserting delivery of the sample bundle. -/
def sampleReport : StatusReport :=
  ⟨[.deliveredBundle], .noInformation, sampleBundle.id⟩

/-- The administrative record carrying the sample report. -/
def sampleAdminRecord : AdministrativeRecord := ⟨1, sampleReport⟩

/-- The sample node with the sample pack already stored. -/
def sampleCoreWithPack : Core := { sampleCore with store := [samplePack] }

/-- The blocks that survive the receive walk when no deletion is
triggered: known-typed blocks, and unknown-typed blocks that do not
request their own removal. -/
def keepBlock (cb : CanonicalBlock) : Bool :=
  isKnownBlockType cb.blockType || !(hasFlag cb.blockControlFlags RemoveBlock)

/-- A payload block with raw bytes. -/
def payloadSampleBlock : CanonicalBlock :=
  ⟨PayloadBlockType, 0, 0, 0, .payloadData (.raw [1, 2])⟩

/-- An unknown-typed block (type 77) that requests its own removal. -/
def unknownRemovable (n : Nat) : CanonicalBlock :=
  ⟨77, n, RemoveBlock, 0, .unknownData []⟩

/-- Whether an event is a routing-adapter query. -/
def isRoutingQuery : Event → Bool
  | .routingQueried _ => true
  | _ => false

/-- The sample node with one working sender towards the peer. -/
def sampleCoreOk : Core := { sampleCore with senders := [okSender] }

/-- The sample node with one failing sender towards the peer. -/
def sampleCoreFail : Core := { sampleCore with senders := [failSender] }

/-- The sample bundle carrying a hop count block at its limit. -/
def hopBundle : Bundle := ⟨samplePrimary, [hopBlock]⟩

/-- The hop-limited bundle wrapped as a pack. -/
def hopPack : BundlePack := ⟨hopBundle, 0, []⟩

/-- The sample bundle carrying a bundle age block. -/
def agedBundle : Bundle := ⟨samplePrimary, [ageBlock]⟩

/-- The aged bundle wrapped as a pack. -/
def agedPack : BundlePack := ⟨agedBundle, 0, []⟩

/-- The sample node with its clock past the sample bundle's lifetime. -/
def expiredCore : Core := { sampleCore with nowTime := 200 }

/-- The sample node with a hundred microseconds of residence time. -/
def agedCore : Core := { sampleCore with nodeElapsed := 100 }

/-! ## Pack and identity facts -/

@[simp] theorem BundlePack.AddConstraint_bundle (bp : BundlePack) (x : Constraint) :
    (bp.AddConstraint x).bundle = bp.bundle := by
  unfold BundlePack.AddConstraint; split <;> rfl

@[simp] theorem BundlePack.AddConstraint_receiveTime (bp : BundlePack) (x : Constraint) :
    (bp.AddConstraint x).receiveTime = bp.receiveTime := by
  unfold BundlePack.AddConstraint; split <;> rfl

@[simp] theorem BundlePack.RemoveConstraint_bundle (bp : BundlePack) (x : Constraint) :
    (bp.RemoveConstraint x).bundle = bp.bundle := rfl

@[simp] theorem BundlePack.RemoveConstraint_receiveTime (bp : BundlePack) (x : Constraint) :
    (bp.RemoveConstraint x).receiveTime = bp.receiveTime := rfl

@[simp] theorem BundlePack.PurgeConstraints_bundle (bp : BundlePack) :
    bp.PurgeConstraints.bundle = bp.bundle := rfl

@[simp] theorem BundlePack.PurgeConstraints_receiveTime (bp : BundlePack) :
    bp.PurgeConstraints.receiveTime = bp.receiveTime := rfl

@[simp] theorem BundlePack.PurgeConstraints_constraints (bp : BundlePack) :
    bp.PurgeConstraints.constraints = [] := rfl

theorem BundlePack.mem_AddConstraint_self (bp : BundlePack) (x : Constraint) :
    x ∈ (bp.AddConstraint x).constraints := by
  unfold BundlePack.AddConstraint
  split
  case isTrue h => exact h
  case isFalse h => simp

theorem BundlePack.id_eq (bp : BundlePack) : bp.id = bp.bundle.id := rfl

theorem Bundle.id_of_primary_eq {b b2 : Bundle}
    (h : b2.primaryBlock = b.primaryBlock) : b2.id = b.id := by
  cases b; cases b2; cases h; rfl

@[simp] theorem BundlePack.AddConstraint_id (bp : BundlePack) (x : Constraint) :
    (bp.AddConstraint x).id = bp.id := by
  simp [BundlePack.id]

@[simp] theorem BundlePack.RemoveConstraint_id (bp : BundlePack) (x : Constraint) :
    (bp.RemoveConstraint x).id = bp.id := rfl

@[simp] theorem BundlePack.PurgeConstraints_id (bp : BundlePack) :
    bp.PurgeConstraints.id = bp.id := rfl

@[simp] theorem BundlePack.PurgeConstraints_idem (bp : BundlePack) :
    bp.PurgeConstraints.PurgeConstraints = bp.PurgeConstraints := rfl

/-! ## Store facts -/

theorem find?_map_upsert (l : List BundlePack) (p : BundlePack) :
    (l.map (fun q => if q.id == p.id then p else q)).find?
        (fun q => q.id == p.id)
      = (l.find? (fun q => q.id == p.id)).map (fun _ => p) := by
  induction l with
  | nil => rfl
  | cons q t ih =>
    rw [List.map_cons, List.find?_cons, List.find?_cons]
    cases hb : q.id == p.id with
    | true => simp
    | false =>
      simp only [Bool.false_eq_true, if_neg not_false, hb]
      exact ih

theorem find?_map_upsert_ne (l : List BundlePack) (p : BundlePack)
    (i : BundleID) (h : i ≠ p.id) :
    (l.map (fun q => if q.id == p.id then p else q)).find? (fun q => q.id == i)
      = l.find? (fun q => q.id == i) := by
  induction l with
  | nil => rfl
  | cons q t ih =>
    rw [List.map_cons, List.find?_cons, List.find?_cons]
    cases hb : q.id == p.id with
    | true =>
      have hq : q.id = p.id := beq_iff_eq.mp hb
      have h1 : (q.id == i) = false := by
        apply beq_eq_false_iff_ne.mpr
        rw [hq]
        exact fun hc => h hc.symm
      have h2 : (p.id == i) = false :=
        beq_eq_false_iff_ne.mpr (fun hc => h hc.symm)
      simp only [eq_self_iff_true, if_true, h1, h2]
      exact ih
    | false =>
      simp only [Bool.false_eq_true, if_neg not_false]
      cases hi : q.id == i with
      | true => rfl
      | false => exact ih

theorem Store.lookupId_Push_self (s : Store) (p : BundlePack) :
    (s.Push p).lookupId p.id = some p := by
  unfold Store.Push Store.lookupId
  by_cases h : s.any (fun q => q.id == p.id) = true
  · rw [if_pos h, find?_map_upsert]
    rcases List.any_eq_true.mp h with ⟨x, hx, hpx⟩
    cases hfind : s.find? (fun q => q.id == p.id) with
    | none =>
      exact absurd hpx (by simpa using List.find?_eq_none.mp hfind x hx)
    | some y => rfl
  · rw [if_neg h, List.find?_append]
    have hf : s.find? (fun q => q.id == p.id) = none := by
      apply List.find?_eq_none.mpr
      intro x hx hc
      exact h (List.any_eq_true.mpr ⟨x, hx, hc⟩)
    rw [hf]
    simp [List.find?_cons]

theorem Store.lookupId_Push_ne (s : Store) (p : BundlePack) (i : BundleID)
    (h : i ≠ p.id) : (s.Push p).lookupId i = s.lookupId i := by
  unfold Store.Push Store.lookupId
  by_cases hk : s.any (fun q => q.id == p.id) = true
  · rw [if_pos hk, find?_map_upsert_ne _ _ _ h]
  · rw [if_neg hk, List.find?_append]
    have h2 : p.id ≠ i := fun hc => h hc.symm
    simp [List.find?_cons, h2]

theorem Store.knowsId_Push (s : Store) (p : BundlePack) (i : BundleID)
    (h : s.knowsId i = true) : (s.Push p).knowsId i = true := by
  unfold Store.knowsId at h ⊢
  unfold Store.Push
  rcases List.any_eq_true.mp h with ⟨x, hx, hpx⟩
  have hxi : x.id = i := beq_iff_eq.mp hpx
  by_cases hk : s.any (fun q => q.id == p.id) = true
  · rw [if_pos hk]
    apply List.any_eq_true.mpr
    refine ⟨if x.id == p.id then p else x, List.mem_map.mpr ⟨x, hx, rfl⟩, ?_⟩
    by_cases hxp : x.id = p.id
    · rw [if_pos (beq_iff_eq.mpr hxp)]
      exact beq_iff_eq.mpr (hxp ▸ hxi)
    · rw [if_neg (by simp only [beq_iff_eq]; exact hxp)]
      exact hpx
  · rw [if_neg hk]
    exact List.any_eq_true.mpr ⟨x, List.mem_append_left _ hx, hpx⟩

theorem Store.knowsId_Push_self (s : Store) (p : BundlePack) :
    (s.Push p).knowsId p.id = true := by
  unfold Store.knowsId
  apply List.any_eq_true.mpr
  unfold Store.Push
  by_cases hk : s.any (fun q => q.id == p.id) = true
  · rcases List.any_eq_true.mp hk with ⟨x, hx, hpx⟩
    rw [if_pos hk]
    refine ⟨if x.id == p.id then p else x, List.mem_map.mpr ⟨x, hx, rfl⟩, ?_⟩
    rw [if_pos hpx]
    exact beq_self_eq_true p.id
  · rw [if_neg hk]
    exact ⟨p, List.mem_append_right _ (List.mem_singleton.mpr rfl),
      beq_self_eq_true p.id⟩

theorem Store.Push_idem (s : Store) (p : BundlePack) :
    (s.Push p).Push p = s.Push p := by
  unfold Store.Push
  by_cases hk : s.any (fun q => q.id == p.id) = true
  · rw [if_pos hk]
    have hany : (s.map (fun q => if q.id == p.id then p else q)).any
        (fun q => q.id == p.id) = true := by
      rcases List.any_eq_true.mp hk with ⟨x, hx, hpx⟩
      apply List.any_eq_true.mpr
      refine ⟨if x.id == p.id then p else x, List.mem_map.mpr ⟨x, hx, rfl⟩, ?_⟩
      rw [if_pos hpx]
      exact beq_self_eq_true p.id
    rw [if_pos hany, List.map_map]
    apply List.map_congr_left
    intro a ha
    by_cases hap : a.id = p.id
    · simp [hap]
    · simp [hap]
  · rw [if_neg hk]
    have hany : (s ++ [p]).any (fun q => q.id == p.id) = true :=
      List.any_eq_true.mpr ⟨p, List.mem_append_right _ (List.mem_singleton.mpr rfl),
        beq_self_eq_true p.id⟩
    rw [if_pos hany, List.map_append]
    have h1 : s.map (fun q => if q.id == p.id then p else q) = s := by
      conv_rhs => rw [← List.map_id s]
      apply List.map_congr_left
      intro a ha
      have hne : ¬ (a.id == p.id) = true :=
        fun hc => hk (List.any_eq_true.mpr ⟨a, ha, hc⟩)
      rw [if_neg hne]
      rfl
    have h2 : [p].map (fun q => if q.id == p.id then p else q) = [p] := by
      simp
    rw [h1, h2]

theorem Core.pushStore_idem (c : Core) (bp : BundlePack) :
    (c.pushStore bp).pushStore bp = c.pushStore bp := by
  unfold Core.pushStore
  rw [Store.Push_idem]

theorem Store.lookupId_mutate_self (s : Store) (j : BundleID) (b : Bundle)
    (hb : b.id = j) :
    Store.lookupId
        (s.map (fun p => if p.id == j then { p with bundle := b } else p)) j
      = (Store.lookupId s j).map (fun p => { p with bundle := b }) := by
  unfold Store.lookupId
  induction s with
  | nil => rfl
  | cons q t ih =>
    rw [List.map_cons, List.find?_cons, List.find?_cons]
    cases hq : q.id == j with
    | true =>
      simp only [eq_self_iff_true, if_true]
      have hsc : (({ q with bundle := b } : BundlePack).id == j) = true :=
        beq_iff_eq.mpr hb
      simp only [hsc]
      rfl
    | false =>
      simp only [Bool.false_eq_true, if_neg not_false, hq]
      exact ih

theorem Store.lookupId_mutate_ne (s : Store) (j : BundleID) (b : Bundle)
    (i : BundleID) (hb : b.id = j) (h : i ≠ j) :
    Store.lookupId
        (s.map (fun p => if p.id == j then { p with bundle := b } else p)) i
      = Store.lookupId s i := by
  unfold Store.lookupId
  induction s with
  | nil => rfl
  | cons q t ih =>
    rw [List.map_cons, List.find?_cons, List.find?_cons]
    cases hq : q.id == j with
    | true =>
      simp only [eq_self_iff_true, if_true]
      have h1 : (({ q with bundle := b } : BundlePack).id == i) = false := by
        apply beq_eq_false_iff_ne.mpr
        show b.id ≠ i
        rw [hb]
        exact fun hc => h hc.symm
      have h2 : (q.id == i) = false := by
        apply beq_eq_false_iff_ne.mpr
        rw [beq_iff_eq.mp hq]
        exact fun hc => h hc.symm
      simp only [h1, h2]
      exact ih
    | false =>
      simp only [Bool.false_eq_true, if_neg not_false]
      cases hi : q.id == i with
      | true => rfl
      | false => exact ih

theorem Store.knowsId_mutate (s : Store) (j : BundleID) (b : Bundle)
    (i : BundleID) (hb : b.id = j) :
    Store.knowsId
        (s.map (fun p => if p.id == j then { p with bundle := b } else p)) i
      = Store.knowsId s i := by
  unfold Store.knowsId
  induction s with
  | nil => rfl
  | cons q t ih =>
    rw [List.map_cons, List.any_cons, List.any_cons, ih]
    congr 1
    cases hq : q.id == j with
    | true =>
      simp only [eq_self_iff_true, if_true]
      show (({ q with bundle := b } : BundlePack).id == i) = (q.id == i)
      have hid : ({ q with bundle := b } : BundlePack).id = q.id := by
        show b.id = q.id
        rw [hb, beq_iff_eq.mp hq]
      rw [hid]
    | false =>
      simp only [Bool.false_eq_true, if_neg not_false]

/-! ## Characterizations of the small pipeline steps -/

theorem Core.bundleDeletion_store (c : Core) (bp : BundlePack)
    (r : StatusReportReason) :
    (c.bundleDeletion bp r).store = c.store.Push bp.PurgeConstraints := by
  simp only [Core.bundleDeletion, Core.SendStatusReport, Core.emit,
    Core.pushStore]
  split <;> rfl

theorem Core.bundleDeletion_events (c : Core) (bp : BundlePack)
    (r : StatusReportReason) :
    (c.bundleDeletion bp r).events = c.events ++ deletionEvents bp r := by
  simp only [Core.bundleDeletion, Core.SendStatusReport, Core.emit,
    Core.pushStore, deletionEvents]
  split <;> simp

theorem Core.bundleDeletion_senders (c : Core) (bp : BundlePack)
    (r : StatusReportReason) :
    (c.bundleDeletion bp r).senders = c.senders := by
  simp only [Core.bundleDeletion, Core.SendStatusReport, Core.emit,
    Core.pushStore]
  split <;> rfl

theorem Core.bundleContraindicated_store (c : Core) (bp : BundlePack) :
    (c.bundleContraindicated bp).store
      = c.store.Push (bp.AddConstraint .contraindicated) := rfl

theorem Core.bundleContraindicated_events (c : Core) (bp : BundlePack) :
    (c.bundleContraindicated bp).events = c.events := rfl

theorem Core.trySend_fst_store (c : Core) (b : Bundle) (n : Sender) :
    (c.trySend b n).1.store = c.store := by
  simp only [Core.trySend, Core.emit, Core.RemoveConvergenceSender,
    Core.RegisterConvergenceSender]
  split <;> rfl

theorem Core.trySend_fst_inspectAll (c : Core) (b : Bundle) (n : Sender) :
    (c.trySend b n).1.inspectAllBundles = c.inspectAllBundles := by
  simp only [Core.trySend, Core.emit, Core.RemoveConvergenceSender,
    Core.RegisterConvergenceSender]
  split <;> rfl

theorem Core.trySend_fst_events (c : Core) (b : Bundle) (n : Sender) :
    (c.trySend b n).1.events = c.events ++ sendEvents n := by
  simp only [Core.trySend, Core.emit, Core.RemoveConvergenceSender,
    Core.RegisterConvergenceSender, sendEvents]
  split
  case isTrue h => simp [h]
  case isFalse h =>
    have hb : n.failsSend = false := by
      cases hf : n.failsSend
      · rfl
      · exact absurd hf h
    simp [hb]

theorem Core.trySend_snd (c : Core) (b : Bundle) (n : Sender) :
    (c.trySend b n).2 = !n.failsSend := by
  simp only [Core.trySend]
  split
  case isTrue h => simp [h]
  case isFalse h =>
    have hb : n.failsSend = false := by
      cases hf : n.failsSend
      · rfl
      · exact absurd hf h
    simp [hb]

theorem Core.trySend_fst_senders (c : Core) (b : Bundle) (n : Sender) :
    (c.trySend b n).1.senders
      = if n.failsSend then
          (c.senders.filter (fun s => s != n)) ++ [freshSender n]
        else c.senders := by
  simp only [Core.trySend, Core.emit, Core.RemoveConvergenceSender,
    Core.RegisterConvergenceSender]
  split
  case isTrue h => simp [h]
  case isFalse h =>
    have hb : n.failsSend = false := by
      cases hf : n.failsSend
      · rfl
      · exact absurd hf h
    simp [hb]

theorem fanout_fst_store (bndl : Bundle) (ns : List Sender) :
    ∀ (c : Core) (s0 : Bool), (fanout bndl c ns s0).1.store = c.store := by
  induction ns with
  | nil => intro c s0; rfl
  | cons n t ih =>
    intro c s0
    rw [fanout]
    rw [ih]
    exact Core.trySend_fst_store c bndl n

theorem fanout_fst_inspectAll (bndl : Bundle) (ns : List Sender) :
    ∀ (c : Core) (s0 : Bool),
      (fanout bndl c ns s0).1.inspectAllBundles = c.inspectAllBundles := by
  induction ns with
  | nil => intro c s0; rfl
  | cons n t ih =>
    intro c s0
    rw [fanout]
    rw [ih]
    exact Core.trySend_fst_inspectAll c bndl n

theorem fanout_fst_events (bndl : Bundle) (ns : List Sender) :
    ∀ (c : Core) (s0 : Bool),
      (fanout bndl c ns s0).1.events = c.events ++ (ns.map sendEvents).flatten := by
  induction ns with
  | nil => intro c s0; simp [fanout]
  | cons n t ih =>
    intro c s0
    rw [fanout]
    rw [ih]
    rw [Core.trySend_fst_events]
    simp [List.append_assoc]

theorem fanout_snd (bndl : Bundle) (ns : List Sender) :
    ∀ (c : Core) (s0 : Bool),
      (fanout bndl c ns s0).2 = (s0 || ns.any (fun n => !n.failsSend)) := by
  induction ns with
  | nil => intro c s0; simp [fanout]
  | cons n t ih =>
    intro c s0
    rw [fanout]
    rw [ih]
    rw [Core.trySend_snd]
    simp [Bool.or_assoc]

theorem receiveWalk_fst_store (bp : BundlePack) (rev : List CanonicalBlock) :
    ∀ (c : Core) (suffix : List CanonicalBlock),
      (receiveWalk bp c rev suffix).1.store = c.store := by
  induction rev with
  | nil => intro c suffix; rfl
  | cons cb rest ih =>
    intro c suffix
    rw [receiveWalk]
    split
    · exact ih _ _
    · have hstep : ∀ c2 : Core, c2.store = c.store →
          ((if hasFlag cb.blockControlFlags DeleteBundle = true then
              (c2, WalkOutcome.walkDeleted (rest.reverse ++ cb :: suffix))
            else if hasFlag cb.blockControlFlags RemoveBlock = true then
              receiveWalk bp c2 rest suffix
            else receiveWalk bp c2 rest (cb :: suffix)).1.store = c.store) := by
        intro c2 h2
        split
        · exact h2
        · split
          · rw [ih]; exact h2
          · rw [ih]; exact h2
      exact hstep _ (by split <;> rfl)

/-! ## Characterizations of the administrative-record path -/

theorem Core.inspect_eq_single (c : Core) (ar : AdministrativeRecord)
    (bp : BundlePack)
    (hq : QueryFromStatusReport c.store ar.content = [bp]) :
    c.inspectStatusReport ar =
      if StatusInformation.deliveredBundle ∈ ar.content.statusInformations
      then c.pushStore bp.PurgeConstraints else c := by
  have main : ∀ (l : List StatusInformation) (c0 : Core) (b0 : BundlePack),
      (l.foldl (fun acc sip =>
        match sip with
        | .deliveredBundle =>
          let bp2 := acc.2.PurgeConstraints
          (acc.1.pushStore bp2, bp2)
        | _ => acc) (c0, b0))
      = if StatusInformation.deliveredBundle ∈ l
        then (c0.pushStore b0.PurgeConstraints, b0.PurgeConstraints)
        else (c0, b0) := by
    intro l
    induction l with
    | nil => intro c0 b0; simp
    | cons sip t ih =>
      intro c0 b0
      rw [List.foldl_cons]
      cases sip with
      | deliveredBundle =>
        rw [ih]
        by_cases hd : StatusInformation.deliveredBundle ∈ t
        · simp [hd, Core.pushStore_idem, BundlePack.PurgeConstraints_idem]
        · simp [hd]
      | receivedBundle => rw [ih]; simp
      | forwardedBundle => rw [ih]; simp
      | deletedBundle => rw [ih]; simp
      | unknownInformation code => rw [ih]; simp
  unfold Core.inspectStatusReport
  by_cases he : ar.content.statusInformations.isEmpty = true
  · rw [if_pos he]
    have hl : ar.content.statusInformations = [] := by
      cases hc : ar.content.statusInformations
      · rfl
      · rw [hc] at he; exact absurd he (by simp)
    rw [hl]
    simp
  · rw [if_neg he]
    simp only [hq]
    rw [main]
    by_cases hd : StatusInformation.deliveredBundle ∈ ar.content.statusInformations
    · simp [hd]
    · simp [hd]

theorem Core.inspect_eq_of_not_single (c : Core) (ar : AdministrativeRecord)
    (hq : ∀ bp, QueryFromStatusReport c.store ar.content ≠ [bp]) :
    c.inspectStatusReport ar = c := by
  unfold Core.inspectStatusReport
  by_cases he : ar.content.statusInformations.isEmpty = true
  · rw [if_pos he]
  · rw [if_neg he]
    cases hc : QueryFromStatusReport c.store ar.content with
    | nil => rfl
    | cons a t =>
      cases t with
      | nil => exact absurd hc (hq a)
      | cons a2 t2 => rfl

theorem Core.inspect_store_char (c : Core) (ar : AdministrativeRecord) :
    (c.inspectStatusReport ar).store = c.store ∨
      ∃ bp, QueryFromStatusReport c.store ar.content = [bp] ∧
        (c.inspectStatusReport ar).store = c.store.Push bp.PurgeConstraints := by
  by_cases hs : ∃ bp, QueryFromStatusReport c.store ar.content = [bp]
  · rcases hs with ⟨bp, hbp⟩
    rw [Core.inspect_eq_single c ar bp hbp]
    by_cases hd : StatusInformation.deliveredBundle ∈ ar.content.statusInformations
    · right
      exact ⟨bp, hbp, by rw [if_pos hd]; rfl⟩
    · left
      rw [if_neg hd]
  · left
    rw [Core.inspect_eq_of_not_single c ar (by push_neg at hs; exact hs)]

theorem Core.check_fst_store_char (c : Core) (bp : BundlePack) :
    (c.checkAdministrativeRecord bp).1.store = c.store ∨
      ∃ q : BundlePack,
        (c.checkAdministrativeRecord bp).1.store = c.store.Push q.PurgeConstraints := by
  unfold Core.checkAdministrativeRecord
  split
  · left; rfl
  · split
    · left; rfl
    · rcases Core.inspect_store_char c _ with h | ⟨q, _, h⟩
      · left; exact h
      · right; exact ⟨q, h⟩

theorem Core.check_of_failure (c : Core) (bp : BundlePack)
    (hAdmin : bp.bundle.IsAdministrativeRecord = true)
    (hNone : bp.bundle.adminRecord = none) :
    c.checkAdministrativeRecord bp = (c, false) := by
  unfold Core.checkAdministrativeRecord
  rw [hAdmin]
  simp only [Bool.not_true, Bool.false_eq_true, if_neg not_false]
  rw [hNone]

/-! ## Block update facts -/

theorem find?_updateBlockData_self (blocks : List CanonicalBlock) (t : Nat)
    (f : BlockData → BlockData) :
    (updateBlockData blocks t f).find? (fun cb => cb.blockType == t)
      = (blocks.find? (fun cb => cb.blockType == t)).map
          (fun cb => { cb with data := f cb.data }) := by
  induction blocks with
  | nil => rfl
  | cons cb rest ih =>
    rw [updateBlockData]
    cases hb : cb.blockType == t with
    | true =>
      simp only [eq_self_iff_true, if_true]
      rw [List.find?_cons, List.find?_cons]
      simp only [hb]
      rfl
    | false =>
      simp only [Bool.false_eq_true, if_neg not_false]
      rw [List.find?_cons, List.find?_cons]
      simp only [hb]
      exact ih

theorem find?_updateBlockData_ne (blocks : List CanonicalBlock) (t t2 : Nat)
    (f : BlockData → BlockData) (h : t2 ≠ t) :
    (updateBlockData blocks t f).find? (fun cb => cb.blockType == t2)
      = blocks.find? (fun cb => cb.blockType == t2) := by
  induction blocks with
  | nil => rfl
  | cons cb rest ih =>
    rw [updateBlockData]
    cases hb : cb.blockType == t with
    | true =>
      simp only [eq_self_iff_true, if_true]
      rw [List.find?_cons, List.find?_cons]
      have h2 : (cb.blockType == t2) = false := by
        apply beq_eq_false_iff_ne.mpr
        rw [beq_iff_eq.mp hb]
        exact fun hc => h hc.symm
      simp only [h2]
    | false =>
      simp only [Bool.false_eq_true, if_neg not_false]
      rw [List.find?_cons, List.find?_cons]
      cases h2 : cb.blockType == t2 with
      | true => rfl
      | false => exact ih

theorem Bundle.hopCount_update (b : Bundle) (hc hc2 : HopCount)
    (h : b.hopCount = some hc) :
    (Bundle.mk b.primaryBlock (updateBlockData b.canonicalBlocks
      HopCountBlockType (fun _ => .hopCountData hc2))).hopCount = some hc2 := by
  unfold Bundle.hopCount Bundle.ExtensionBlock at h ⊢
  rw [find?_updateBlockData_self]
  cases hf : b.canonicalBlocks.find? (fun cb => cb.blockType == HopCountBlockType) with
  | none => rw [hf] at h; exact absurd h (by simp)
  | some cb => rfl

theorem Bundle.bundleAge_hopUpdate (b : Bundle) (hc2 : HopCount) :
    (Bundle.mk b.primaryBlock (updateBlockData b.canonicalBlocks
      HopCountBlockType (fun _ => .hopCountData hc2))).bundleAge
      = b.bundleAge := by
  unfold Bundle.bundleAge Bundle.ExtensionBlock
  rw [find?_updateBlockData_ne]
  decide

theorem Bundle.hopCount_ageUpdate (b : Bundle) (age2 : Nat) :
    (Bundle.mk b.primaryBlock (updateBlockData b.canonicalBlocks
      BundleAgeBlockType (fun _ => .bundleAgeData age2))).hopCount
      = b.hopCount := by
  unfold Bundle.hopCount Bundle.ExtensionBlock
  rw [find?_updateBlockData_ne]
  decide

theorem Bundle.bundleAge_ageUpdate (b : Bundle) (age age2 : Nat)
    (h : b.bundleAge = some age) :
    (Bundle.mk b.primaryBlock (updateBlockData b.canonicalBlocks
      BundleAgeBlockType (fun _ => .bundleAgeData age2))).bundleAge
      = some age2 := by
  unfold Bundle.bundleAge Bundle.ExtensionBlock at h ⊢
  rw [find?_updateBlockData_self]
  cases hf : b.canonicalBlocks.find? (fun cb => cb.blockType == BundleAgeBlockType) with
  | none => rw [hf] at h; exact absurd h (by simp)
  | some cb => rfl

/-! ## The store identity set grows monotonically through every stage -/

theorem Core.knowsId_pushStore (c : Core) (bp : BundlePack) (i : BundleID)
    (h : Store.knowsId c.store i = true) :
    Store.knowsId (c.pushStore bp).store i = true :=
  Store.knowsId_Push c.store bp i h

theorem Core.knowsId_mutateBlocks (c : Core) (bp : BundlePack)
    (f : List CanonicalBlock → List CanonicalBlock) (i : BundleID)
    (h : Store.knowsId c.store i = true) :
    Store.knowsId ((c.mutateBlocks bp f).1).store i = true := by
  simp only [Core.mutateBlocks]
  rw [Store.knowsId_mutate c.store bp.id
    (Bundle.mk bp.bundle.primaryBlock (f bp.bundle.canonicalBlocks)) i rfl]
  exact h

theorem Core.knowsId_bundleDeletion (c : Core) (bp : BundlePack)
    (r : StatusReportReason) (i : BundleID)
    (h : Store.knowsId c.store i = true) :
    Store.knowsId (c.bundleDeletion bp r).store i = true := by
  rw [Core.bundleDeletion_store]
  exact Store.knowsId_Push c.store _ i h

theorem Core.knowsId_bundleContraindicated (c : Core) (bp : BundlePack)
    (i : BundleID) (h : Store.knowsId c.store i = true) :
    Store.knowsId (c.bundleContraindicated bp).store i = true := by
  rw [Core.bundleContraindicated_store]
  exact Store.knowsId_Push c.store _ i h

theorem Core.knowsId_inspect (c : Core) (ar : AdministrativeRecord)
    (i : BundleID) (h : Store.knowsId c.store i = true) :
    Store.knowsId (c.inspectStatusReport ar).store i = true := by
  rcases Core.inspect_store_char c ar with hs | ⟨bp, _, hs⟩
  · rw [hs]; exact h
  · rw [hs]; exact Store.knowsId_Push c.store _ i h

theorem Core.knowsId_check (c : Core) (bp : BundlePack) (i : BundleID)
    (h : Store.knowsId c.store i = true) :
    Store.knowsId ((c.checkAdministrativeRecord bp).1).store i = true := by
  rcases Core.check_fst_store_char c bp with hs | ⟨q, hs⟩
  · rw [hs]; exact h
  · rw [hs]; exact Store.knowsId_Push c.store _ i h

theorem Core.knowsId_forwardFanout (c : Core) (bp : BundlePack)
    (ns : List Sender) (da : Bool) (i : BundleID)
    (h : Store.knowsId c.store i = true) :
    Store.knowsId (c.forwardFanout bp ns da).store i = true := by
  have hfan : Store.knowsId (fanout bp.bundle c ns false).1.store i = true := by
    rw [fanout_fst_store]; exact h
  simp only [Core.forwardFanout]
  split
  case isTrue =>
    have hstep : ∀ c2 : Core, c2.store = (fanout bp.bundle c ns false).1.store →
        Store.knowsId ((if da = true then c2.pushStore bp.PurgeConstraints
          else if (c2.inspectAllBundles && bp.bundle.IsAdministrativeRecord) = true
          then ((c2.bundleContraindicated bp).checkAdministrativeRecord bp).1
          else c2)).store i = true := by
      intro c2 h2
      have hc2 : Store.knowsId c2.store i = true := by rw [h2]; exact hfan
      split
      · exact Core.knowsId_pushStore _ _ _ hc2
      · split
        · exact Core.knowsId_check _ _ _
            (Core.knowsId_bundleContraindicated _ _ _ hc2)
        · exact hc2
    exact hstep _ (by split <;> rfl)
  case isFalse => exact Core.knowsId_bundleContraindicated _ _ _ hfan

theorem Core.knowsId_forwardSenders (c : Core) (bp : BundlePack) (i : BundleID)
    (h : Store.knowsId c.store i = true) :
    Store.knowsId (c.forwardSenders bp).store i = true := by
  simp only [Core.forwardSenders]
  split
  · exact Core.knowsId_forwardFanout _ _ _ _ _ h
  · split
    · exact Core.knowsId_bundleContraindicated _ _ _ h
    · exact Core.knowsId_forwardFanout _ _ _ _ _ h

theorem Core.knowsId_forwardAge (c : Core) (bp : BundlePack) (i : BundleID)
    (h : Store.knowsId c.store i = true) :
    Store.knowsId (c.forwardAge bp).store i = true := by
  simp only [Core.forwardAge, Core.UpdateBundleAge]
  cases hage : bp.bundle.bundleAge with
  | some age =>
    simp only [hage]
    split
    · exact Core.knowsId_bundleDeletion _ _ _ _
        (Core.knowsId_mutateBlocks _ _ _ _ h)
    · exact Core.knowsId_forwardSenders _ _ _
        (Core.knowsId_mutateBlocks _ _ _ _ h)
  | none =>
    simp only [hage]
    exact Core.knowsId_forwardSenders _ _ _ h

theorem Core.knowsId_forwardLifetime (c : Core) (bp : BundlePack) (i : BundleID)
    (h : Store.knowsId c.store i = true) :
    Store.knowsId (c.forwardLifetime bp).store i = true := by
  simp only [Core.forwardLifetime]
  split
  · exact Core.knowsId_bundleDeletion _ _ _ _ h
  · exact Core.knowsId_forwardAge _ _ _ h

theorem Core.knowsId_forward (c : Core) (bp : BundlePack) (i : BundleID)
    (h : Store.knowsId c.store i = true) :
    Store.knowsId (c.forward bp).store i = true := by
  simp only [Core.forward]
  split
  · split
    · exact Core.knowsId_bundleDeletion _ _ _ _
        (Core.knowsId_mutateBlocks _ _ _ _ (Core.knowsId_pushStore _ _ _ h))
    · exact Core.knowsId_forwardLifetime _ _ _
        (Core.knowsId_mutateBlocks _ _ _ _ (Core.knowsId_pushStore _ _ _ h))
  · exact Core.knowsId_forwardLifetime _ _ _ (Core.knowsId_pushStore _ _ _ h)

theorem agentsFold_store (bp : BundlePack) (ags : List EndpointID) :
    ∀ c : Core,
      (ags.foldl (fun c a =>
        if a == bp.bundle.primaryBlock.destination then
          c.emit (.agentDelivered a bp.id)
        else c) c).store = c.store := by
  induction ags with
  | nil => intro c; rfl
  | cons a t ih =>
    intro c
    rw [List.foldl_cons, ih]
    split <;> rfl

theorem Core.knowsId_localDeliveryAgents (c : Core) (bp : BundlePack)
    (i : BundleID) (h : Store.knowsId c.store i = true) :
    Store.knowsId (c.localDeliveryAgents bp).store i = true := by
  simp only [Core.localDeliveryAgents]
  apply Core.knowsId_pushStore
  split
  · exact (agentsFold_store bp c.agents c).symm ▸ h
  · exact (agentsFold_store bp c.agents c).symm ▸ h

theorem Core.knowsId_localDelivery (c : Core) (bp : BundlePack) (i : BundleID)
    (h : Store.knowsId c.store i = true) :
    Store.knowsId (c.localDelivery bp).store i = true := by
  simp only [Core.localDelivery]
  split
  · split
    · exact Core.knowsId_localDeliveryAgents _ _ _ (Core.knowsId_check _ _ _ h)
    · exact Core.knowsId_bundleDeletion _ _ _ _ (Core.knowsId_check _ _ _ h)
  · exact Core.knowsId_localDeliveryAgents _ _ _ h

theorem Core.knowsId_dispatching (c : Core) (bp : BundlePack) (i : BundleID)
    (h : Store.knowsId c.store i = true) :
    Store.knowsId (c.dispatching bp).store i = true := by
  simp only [Core.dispatching]
  split
  · exact Core.knowsId_localDelivery _ _ _ h
  · exact Core.knowsId_forward _ _ _ h

theorem Core.knowsId_receive_self (c : Core) (bp : BundlePack) :
    Store.knowsId (c.receive bp).store bp.id = true := by
  unfold Core.receive
  split
  case isTrue h => exact h
  case isFalse h =>
    have base : Store.knowsId
        (c.pushStore (bp.AddConstraint .dispatchPending)).store bp.id = true := by
      have hp := Store.knowsId_Push_self c.store (bp.AddConstraint .dispatchPending)
      rwa [BundlePack.AddConstraint_id] at hp
    have hstep : ∀ c2 : Core, Store.knowsId c2.store bp.id = true →
        Store.knowsId
          ((match (receiveWalk (bp.AddConstraint .dispatchPending) c2
              (bp.AddConstraint .dispatchPending).bundle.canonicalBlocks.reverse []).2 with
            | .walkDeleted blocks =>
              ((receiveWalk (bp.AddConstraint .dispatchPending) c2
                  (bp.AddConstraint .dispatchPending).bundle.canonicalBlocks.reverse []).1.mutateBlocks
                  (bp.AddConstraint .dispatchPending) (fun _ => blocks)).1.bundleDeletion
                ((receiveWalk (bp.AddConstraint .dispatchPending) c2
                  (bp.AddConstraint .dispatchPending).bundle.canonicalBlocks.reverse []).1.mutateBlocks
                  (bp.AddConstraint .dispatchPending) (fun _ => blocks)).2 .blockUnintelligible
            | .walkDone blocks =>
              ((receiveWalk (bp.AddConstraint .dispatchPending) c2
                  (bp.AddConstraint .dispatchPending).bundle.canonicalBlocks.reverse []).1.mutateBlocks
                  (bp.AddConstraint .dispatchPending) (fun _ => blocks)).1.dispatching
                ((receiveWalk (bp.AddConstraint .dispatchPending) c2
                  (bp.AddConstraint .dispatchPending).bundle.canonicalBlocks.reverse []).1.mutateBlocks
                  (bp.AddConstraint .dispatchPending) (fun _ => blocks)).2).store)
          bp.id = true := by
      intro c2 h2
      have hwalk : Store.knowsId
          (receiveWalk (bp.AddConstraint .dispatchPending) c2
            (bp.AddConstraint .dispatchPending).bundle.canonicalBlocks.reverse []).1.store
          bp.id = true := by
        rw [receiveWalk_fst_store]; exact h2
      split
      · exact Core.knowsId_bundleDeletion _ _ _ _
          (Core.knowsId_mutateBlocks _ _ _ _ hwalk)
      · exact Core.knowsId_dispatching _ _ _
          (Core.knowsId_mutateBlocks _ _ _ _ hwalk)
    exact hstep _ (by split <;> exact base)

/-! ## The claims -/

/-- C3: a second `receive` of a bundle whose identity the store already
knows (in particular, any bundle of the same identity as one received
before) returns without adding a constraint, pushing to the store, or
marking for deletion — the whole node state after the second call equals
the state after the first. -/
theorem receive_duplicate_suppression (c : Core) (bp bp2 : BundlePack)
    (h : bp2.id = bp.id) :
    (c.receive bp).receive bp2 = c.receive bp := by
  have hgen : ∀ d : Core, KnowsBundle d.store bp2 = true → d.receive bp2 = d := by
    intro d hd
    unfold Core.receive
    rw [if_pos hd]
  apply hgen
  show Store.knowsId (c.receive bp).store bp2.id = true
  rw [h]
  exact Core.knowsId_receive_self c bp

theorem receive_duplicate_suppression_witness :
    ((⟨sampleBundle, 9, []⟩ : BundlePack).id = samplePack.id) ∧
    ((sampleCore.receive samplePack).receive ⟨sampleBundle, 9, []⟩
      = sampleCore.receive samplePack) :=
  ⟨rfl, receive_duplicate_suppression sampleCore samplePack ⟨sampleBundle, 9, []⟩ rfl⟩

/-- C9: at local delivery, an administrative bundle whose administrative
record cannot be obtained (missing payload block or unparseable payload) is
deleted with reason *NoInformation*, and the stage appends exactly the
deletion events — no agent delivery, no routing notification, and no
delivery status report happen. -/
theorem localDelivery_admin_failure (c : Core) (bp : BundlePack)
    (hAdmin : bp.bundle.IsAdministrativeRecord = true)
    (hNone : bp.bundle.adminRecord = none) :
    c.localDelivery bp = c.bundleDeletion bp .noInformation ∧
    (c.localDelivery bp).events = c.events ++ deletionEvents bp .noInformation := by
  have hld : c.localDelivery bp = c.bundleDeletion bp .noInformation := by
    unfold Core.localDelivery
    simp only [hAdmin, eq_self_iff_true, if_true]
    rw [Core.check_of_failure c bp hAdmin hNone]
    rfl
  exact ⟨hld, by rw [hld, Core.bundleDeletion_events]⟩

theorem localDelivery_admin_failure_witness :
    adminBundle.IsAdministrativeRecord = true ∧
    adminBundle.adminRecord = none ∧
    sampleCore.localDelivery adminPack
      = sampleCore.bundleDeletion adminPack .noInformation ∧
    (sampleCore.localDelivery adminPack).events
      = sampleCore.events ++ deletionEvents adminPack .noInformation := by
  refine ⟨by decide, by decide, ?_⟩
  exact localDelivery_admin_failure sampleCore adminPack (by decide) (by decide)

/-- C10 (corrected): for a builder with no earlier error, an unset source
node or destination always makes `Build` return an error, and a successful
`Build` with the report-to endpoint unset yields a bundle whose report-to
is the source node; but an error does not imply an unset endpoint —
`Build` also propagates the assembly's validation error, which can fire
with both endpoints set (the counterexample: a `dtn:none` destination). -/
theorem builder_build_spec (bldr : BundleBuilder) (h : bldr.errMsg = none) :
    ((bldr.primary.sourceNode = default ∨ bldr.primary.destination = default) →
      ∃ e, bldr.Build = .error e) ∧
    (∀ b : Bundle, bldr.Build = .ok b → bldr.primary.reportTo = default →
      b.primaryBlock.reportTo = bldr.primary.sourceNode) := by
  unfold BundleBuilder.Build
  rw [h]
  by_cases hrt : bldr.primary.reportTo = default
  · simp only [beq_iff_eq, hrt, eq_self_iff_true, if_true]
    by_cases hsd : bldr.primary.sourceNode = default ∨
        bldr.primary.destination = default
    · have hc : (bldr.primary.sourceNode == default
          || bldr.primary.destination == default) = true := by
        rcases hsd with h1 | h1
        · simp [h1]
        · simp [h1]
      simp only [hc, eq_self_iff_true, if_true]
      constructor
      · exact fun _ => ⟨_, rfl⟩
      · intro b hb
        exact absurd hb (by simp)
    · have hc : (bldr.primary.sourceNode == default
          || bldr.primary.destination == default) = false := by
        push_neg at hsd
        simp [hsd.1, hsd.2]
      simp only [hc, Bool.false_eq_true, if_neg not_false]
      constructor
      · intro hor
        exact absurd hor hsd
      · intro b hb hrep
        unfold NewBundle at hb
        by_cases hdn : ({ bldr.primary with
            reportTo := bldr.primary.sourceNode } : PrimaryBlock).destination
            == DtnNone
        · rw [if_pos hdn] at hb
          exact absurd hb (by simp)
        · rw [if_neg hdn] at hb
          have hbx : Bundle.SetCRCType
              ⟨{ bldr.primary with reportTo := bldr.primary.sourceNode },
                bldr.canonicals⟩ bldr.crcType = b := by
            injection hb
          rw [← hbx]
          rfl
  · have hbeq : (bldr.primary.reportTo == (default : EndpointID)) = false :=
      beq_eq_false_iff_ne.mpr hrt
    simp only [hbeq, Bool.false_eq_true, if_neg not_false]
    by_cases hsd : bldr.primary.sourceNode = default ∨
        bldr.primary.destination = default
    · have hc : (bldr.primary.sourceNode == default
          || bldr.primary.destination == default) = true := by
        rcases hsd with h1 | h1
        · simp [h1]
        · simp [h1]
      simp only [hc, eq_self_iff_true, if_true]
      constructor
      · exact fun _ => ⟨_, rfl⟩
      · intro b hb
        exact absurd hb (by simp)
    · have hc : (bldr.primary.sourceNode == default
          || bldr.primary.destination == default) = false := by
        push_neg at hsd
        simp [hsd.1, hsd.2]
      simp only [hc, Bool.false_eq_true, if_neg not_false]
      constructor
      · intro hor
        exact absurd hor hsd
      · intro b hb hrep
        exact absurd hrep hrt

/-- C10, the counterexample to the claim's only-if direction: a builder
with no earlier error whose source and destination are both set — the
destination being `dtn:none`, which is not the zero endpoint — still gets
an error from `Build`, propagated from the assembly's validation. -/
theorem builder_build_counterexample :
    noneDestBuilder.errMsg = none ∧
    noneDestBuilder.primary.sourceNode ≠ (default : EndpointID) ∧
    noneDestBuilder.primary.destination ≠ (default : EndpointID) ∧
    noneDestBuilder.Build = .error "dtn:none is not a valid destination" :=
  ⟨rfl, by decide, by decide, rfl⟩

theorem sendEvents_mem_attempt (n : Sender) :
    Event.sendAttempt n.address (!n.failsSend) ∈ sendEvents n := by
  cases h : n.failsSend <;> simp [sendEvents, h]

theorem sendEvents_no_routing (n : Sender) :
    (sendEvents n).filter isRoutingQuery = [] := by
  cases h : n.failsSend <;> simp [sendEvents, h, isRoutingQuery]

theorem flatten_sendEvents_no_routing (ns : List Sender) :
    ((ns.map sendEvents).flatten).filter isRoutingQuery = [] := by
  induction ns with
  | nil => rfl
  | cons n t ih =>
    rw [List.map_cons, List.flatten_cons, List.filter_append,
      sendEvents_no_routing, ih]
    rfl

/-- Under passing hop-count, lifetime and age checks, `forward` reaches the
sender-selection step with an unchanged sender registry, event log and
clock, and with a pack of the same primary block and identity. -/
theorem forward_to_senders (c : Core) (bp : BundlePack)
    (hhop : ∀ hc : HopCount, bp.bundle.hopCount = some hc →
      hc.Increment.IsExceeded = false)
    (hlife : bp.bundle.primaryBlock.IsLifetimeExceeded c.nowTime = false)
    (hage : ∀ a : Nat, bp.bundle.bundleAge = some a →
      a + c.nodeElapsed < bp.bundle.primaryBlock.lifetime) :
    ∃ (c3 : Core) (bp3 : BundlePack),
      c.forward bp = c3.forwardSenders bp3 ∧
      c3.senders = c.senders ∧
      c3.events = c.events ∧
      c3.inspectAllBundles = c.inspectAllBundles ∧
      bp3.bundle.primaryBlock = bp.bundle.primaryBlock ∧
      bp3.id = bp.id := by
  simp only [Core.forward, BundlePack.AddConstraint_bundle,
    BundlePack.RemoveConstraint_bundle, Core.pushStore, Core.mutateBlocks,
    Core.forwardLifetime, Core.forwardAge, Core.UpdateBundleAge]
  cases hhc : bp.bundle.hopCount with
  | some hc =>
    simp only [hhc]
    rw [if_neg (by simp [hhop hc hhc])]
    rw [if_neg (by simp [hlife])]
    rw [Bundle.bundleAge_hopUpdate]
    cases hba : bp.bundle.bundleAge with
    | some a =>
      simp only [hba]
      rw [if_neg (by have := hage a hba; omega)]
      exact ⟨_, _, rfl, rfl, rfl, rfl, rfl, rfl⟩
    | none =>
      simp only [hba]
      exact ⟨_, _, rfl, rfl, rfl, rfl, rfl, rfl⟩
  | none =>
    rw [if_neg (by simp [hlife])]
    cases hba : bp.bundle.bundleAge with
    | some a =>
      simp only [hba]
      rw [if_neg (by have := hage a hba; omega)]
      exact ⟨_, _, rfl, rfl, rfl, rfl, rfl, rfl⟩
    | none =>
      simp only [hba]
      exact ⟨_, _, rfl, rfl, rfl, rfl, by simp, by simp⟩

/-- With a non-empty direct-delivery hit and at least one working sender,
the sender-selection step never queries the routing adapter, attempts every
direct sender, reports forwarding when requested, and — the direct hit
being definitive — purges the pack and pushes it. -/
theorem forwardSenders_direct (c : Core) (bp : BundlePack) (ns : List Sender)
    (hdir : c.senderForDestination bp.bundle.primaryBlock.destination = some ns)
    (hok : ns.any (fun n => !n.failsSend) = true) :
    (c.forwardSenders bp).events
      = c.events ++ (ns.map sendEvents).flatten ++
        (if hasFlag bp.bundle.primaryBlock.bundleControlFlags
            StatusRequestForward = true
         then [Event.statusReportSent bp.id .forwardedBundle .noInformation]
         else []) ∧
    Store.lookupId (c.forwardSenders bp).store bp.id
      = some bp.PurgeConstraints ∧
    (c.forwardSenders bp).senders = (fanout bp.bundle c ns false).1.senders := by
  simp only [Core.forwardSenders, hdir]
  simp only [Core.forwardFanout]
  have h2 : (fanout bp.bundle c ns false).2 = true := by
    rw [fanout_snd]
    simpa using hok
  simp only [h2, eq_self_iff_true, if_true]
  refine ⟨?_, ?_, ?_⟩
  · split
    case isTrue hf =>
      show ((fanout bp.bundle c ns false).1.SendStatusReport bp .forwardedBundle
          .noInformation).events = _
      rw [show ∀ d : Core, (d.SendStatusReport bp .forwardedBundle
          .noInformation).events = d.events ++
          [Event.statusReportSent bp.id .forwardedBundle .noInformation]
        from fun d => rfl]
      rw [fanout_fst_events]
    case isFalse hf =>
      show (fanout bp.bundle c ns false).1.events = _
      rw [fanout_fst_events, List.append_nil]
  · have hself := Store.lookupId_Push_self
      ((if hasFlag bp.bundle.primaryBlock.bundleControlFlags
          StatusRequestForward = true
        then (fanout bp.bundle c ns false).1.SendStatusReport bp
          .forwardedBundle .noInformation
        else (fanout bp.bundle c ns false).1)).store bp.PurgeConstraints
    rw [BundlePack.PurgeConstraints_id] at hself
    exact hself
  · split <;> rfl

/-- With a single failing direct sender, the sender-selection step attempts
the send, then closes the sender, deregisters it and registers a fresh
instance at the same address, and contraindicates the pack. -/
theorem forwardSenders_direct_fail (c : Core) (bp : BundlePack) (n : Sender)
    (hdir : c.senderForDestination bp.bundle.primaryBlock.destination = some [n])
    (hfail : n.failsSend = true) :
    (c.forwardSenders bp).events = c.events ++
      [Event.sendAttempt n.address false, Event.senderClosed n.address,
        Event.senderRemoved n.address, Event.senderRegistered n.address] ∧
    (c.forwardSenders bp).senders
      = (c.senders.filter (fun s => s != n)) ++ [freshSender n] ∧
    Store.lookupId (c.forwardSenders bp).store bp.id
      = some (bp.AddConstraint .contraindicated) := by
  simp only [Core.forwardSenders, hdir]
  simp only [Core.forwardFanout]
  have h2 : (fanout bp.bundle c [n] false).2 = false := by
    rw [fanout_snd]
    simp [hfail]
  simp only [h2, Bool.false_eq_true, if_neg not_false]
  refine ⟨?_, ?_, ?_⟩
  · rw [Core.bundleContraindicated_events, fanout_fst_events]
    simp [sendEvents, hfail]
  · show (fanout bp.bundle c [n] false).1.senders = _
    rw [show (fanout bp.bundle c [n] false).1 = (c.trySend bp.bundle n).1 from rfl]
    rw [Core.trySend_fst_senders]
    rw [if_pos hfail]
  · rw [Core.bundleContraindicated_store]
    have hself := Store.lookupId_Push_self (fanout bp.bundle c [n] false).1.store
      (bp.AddConstraint .contraindicated)
    rwa [BundlePack.AddConstraint_id] at hself

theorem find?_of_filter_singleton {α : Type} (p : α → Bool) :
    ∀ (l : List α) (x : α), l.filter p = [x] → l.find? p = some x := by
  intro l
  induction l with
  | nil =>
    intro x h
    exact absurd h (by simp)
  | cons a t ih =>
    intro x h
    rw [List.filter_cons] at h
    cases hp : p a with
    | true =>
      simp only [hp, eq_self_iff_true, if_true] at h
      injection h with h1 h2
      subst h1
      rw [List.find?_cons]
      simp only [hp]
    | false =>
      simp only [hp, Bool.false_eq_true, if_neg not_false] at h
      rw [List.find?_cons]
      simp only [hp]
      exact ih x h

theorem Core.mutate_entry (c : Core) (bp : BundlePack)
    (f : List CanonicalBlock → List CanonicalBlock) (q : BundlePack)
    (h : Store.lookupId c.store bp.id = some q) :
    Store.lookupId ((c.mutateBlocks bp f).1).store bp.id
      = some { q with bundle := (c.mutateBlocks bp f).2.bundle } := by
  have h2 := Store.lookupId_mutate_self c.store bp.id
    (Bundle.mk bp.bundle.primaryBlock (f bp.bundle.canonicalBlocks)) rfl
  rw [h] at h2
  exact h2

theorem Core.mutate_entry_at (c : Core) (bp : BundlePack)
    (f : List CanonicalBlock → List CanonicalBlock) (q : BundlePack)
    (i : BundleID) (hi : i = bp.id)
    (h : Store.lookupId c.store i = some q) :
    Store.lookupId ((c.mutateBlocks bp f).1).store i
      = some { q with bundle := (c.mutateBlocks bp f).2.bundle } := by
  rw [hi] at h ⊢
  exact Core.mutate_entry c bp f q h

theorem Core.inspect_store_entry (c : Core) (ar : AdministrativeRecord)
    (i : BundleID) (r : BundlePack)
    (h : Store.lookupId c.store i = some r) :
    ∃ p : BundlePack,
      Store.lookupId (c.inspectStatusReport ar).store i = some p ∧
      (p = r ∨ p = r.PurgeConstraints) := by
  by_cases hs : ∃ bp, QueryFromStatusReport c.store ar.content = [bp]
  · obtain ⟨qq, hqq⟩ := hs
    rw [Core.inspect_eq_single c ar qq hqq]
    by_cases hd : StatusInformation.deliveredBundle
        ∈ ar.content.statusInformations
    · rw [if_pos hd]
      by_cases hqi : qq.id = i
      · have hmem : qq ∈ QueryFromStatusReport c.store ar.content := by
          rw [hqq]
          exact List.mem_singleton.mpr rfl
        have hpred : (qq.id == ar.content.refBundle) = true := by
          unfold QueryFromStatusReport at hmem
          exact (List.mem_filter.mp hmem).2
        have hqr : qq.id = ar.content.refBundle := beq_iff_eq.mp hpred
        have hir : i = ar.content.refBundle := hqi ▸ hqr
        have hfind : c.store.find? (fun p => p.id == ar.content.refBundle)
            = some qq :=
          find?_of_filter_singleton _ c.store qq
            (by unfold QueryFromStatusReport at hqq; exact hqq)
        have hlk : Store.lookupId c.store i = some qq := by
          unfold Store.lookupId
          rw [hir]
          exact hfind
        have hqr2 : qq = r := by
          rw [hlk] at h
          exact Option.some.inj h
        refine ⟨r.PurgeConstraints, ?_, Or.inr rfl⟩
        show Store.lookupId (c.store.Push qq.PurgeConstraints) i
          = some r.PurgeConstraints
        rw [hqr2]
        have hri : r.id = i := hqr2 ▸ hqi
        have hself := Store.lookupId_Push_self c.store r.PurgeConstraints
        rw [BundlePack.PurgeConstraints_id, hri] at hself
        exact hself
      · refine ⟨r, ?_, Or.inl rfl⟩
        show Store.lookupId (c.store.Push qq.PurgeConstraints) i = some r
        rw [Store.lookupId_Push_ne c.store qq.PurgeConstraints i
          (by rw [BundlePack.PurgeConstraints_id]; exact fun hc => hqi hc.symm)]
        exact h
    · rw [if_neg hd]
      exact ⟨r, h, Or.inl rfl⟩
  · rw [Core.inspect_eq_of_not_single c ar (by push_neg at hs; exact hs)]
    exact ⟨r, h, Or.inl rfl⟩

theorem Core.check_store_entry (c : Core) (bp2 : BundlePack) (i : BundleID)
    (r : BundlePack) (h : Store.lookupId c.store i = some r) :
    ∃ p : BundlePack,
      Store.lookupId ((c.checkAdministrativeRecord bp2).1).store i = some p ∧
      (p = r ∨ p = r.PurgeConstraints) := by
  unfold Core.checkAdministrativeRecord
  cases hadm : (!bp2.bundle.IsAdministrativeRecord) with
  | true => exact ⟨r, h, Or.inl rfl⟩
  | false =>
    cases har : bp2.bundle.adminRecord with
    | none => exact ⟨r, h, Or.inl rfl⟩
    | some ar => exact Core.inspect_store_entry c ar i r h

theorem Core.forwardFanout_entry (c : Core) (bp : BundlePack)
    (ns : List Sender) (da : Bool) (q : BundlePack)
    (hq : Store.lookupId c.store bp.id = some q)
    (hqb : q.bundle = bp.bundle) :
    ∃ p : BundlePack,
      Store.lookupId (c.forwardFanout bp ns da).store bp.id = some p ∧
      p.bundle = bp.bundle := by
  have hfs : (fanout bp.bundle c ns false).1.store = c.store :=
    fanout_fst_store bp.bundle ns c false
  simp only [Core.forwardFanout]
  cases hfr : (fanout bp.bundle c ns false).2 with
  | false =>
    refine ⟨bp.AddConstraint .contraindicated, ?_, by simp⟩
    show Store.lookupId
      ((fanout bp.bundle c ns false).1.bundleContraindicated bp).store bp.id
      = some (bp.AddConstraint .contraindicated)
    rw [Core.bundleContraindicated_store]
    have hself := Store.lookupId_Push_self (fanout bp.bundle c ns false).1.store
      (bp.AddConstraint .contraindicated)
    rwa [BundlePack.AddConstraint_id] at hself
  | true =>
    have hstep : ∀ c2 : Core, c2.store = c.store →
        ∃ p : BundlePack,
          Store.lookupId ((if da = true then c2.pushStore bp.PurgeConstraints
            else if (c2.inspectAllBundles && bp.bundle.IsAdministrativeRecord) = true
            then ((c2.bundleContraindicated bp).checkAdministrativeRecord bp).1
            else c2)).store bp.id = some p ∧
          p.bundle = bp.bundle := by
      intro c2 h2
      by_cases hda : da = true
      · rw [if_pos hda]
        refine ⟨bp.PurgeConstraints, ?_, rfl⟩
        show Store.lookupId (c2.store.Push bp.PurgeConstraints) bp.id
          = some bp.PurgeConstraints
        have hself := Store.lookupId_Push_self c2.store bp.PurgeConstraints
        rwa [BundlePack.PurgeConstraints_id] at hself
      · rw [if_neg hda]
        by_cases hins :
            (c2.inspectAllBundles && bp.bundle.IsAdministrativeRecord) = true
        · rw [if_pos hins]
          have hl : Store.lookupId (c2.bundleContraindicated bp).store bp.id
              = some (bp.AddConstraint .contraindicated) := by
            rw [Core.bundleContraindicated_store]
            have hself := Store.lookupId_Push_self c2.store
              (bp.AddConstraint .contraindicated)
            rwa [BundlePack.AddConstraint_id] at hself
          obtain ⟨p, hp, hpor⟩ := Core.check_store_entry
            (c2.bundleContraindicated bp) bp bp.id _ hl
          refine ⟨p, hp, ?_⟩
          rcases hpor with rfl | rfl
          · simp
          · simp
        · rw [if_neg hins]
          refine ⟨q, ?_, hqb⟩
          show Store.lookupId c2.store bp.id = some q
          rw [h2]
          exact hq
    refine hstep (if hasFlag bp.bundle.primaryBlock.bundleControlFlags
        StatusRequestForward = true
      then (fanout bp.bundle c ns false).1.SendStatusReport bp
        .forwardedBundle .noInformation
      else (fanout bp.bundle c ns false).1) ?_
    by_cases hflag : hasFlag bp.bundle.primaryBlock.bundleControlFlags
        StatusRequestForward = true
    · rw [if_pos hflag]
      exact hfs
    · rw [if_neg hflag]
      exact hfs

theorem Core.forwardSenders_entry (c : Core) (bp : BundlePack)
    (q : BundlePack) (hq : Store.lookupId c.store bp.id = some q)
    (hqb : q.bundle = bp.bundle) :
    ∃ p : BundlePack,
      Store.lookupId (c.forwardSenders bp).store bp.id = some p ∧
      p.bundle = bp.bundle := by
  simp only [Core.forwardSenders]
  cases hdir : c.senderForDestination bp.bundle.primaryBlock.destination with
  | some ns2 => exact Core.forwardFanout_entry c bp ns2 true q hq hqb
  | none =>
    cases hr : ((c.emit (Event.routingQueried bp.id)).routeForBundle bp).1 with
    | none =>
      refine ⟨bp.AddConstraint .contraindicated, ?_, by simp⟩
      show Store.lookupId
        ((c.emit (Event.routingQueried bp.id)).bundleContraindicated bp).store
          bp.id
        = some (bp.AddConstraint .contraindicated)
      rw [Core.bundleContraindicated_store]
      have hself := Store.lookupId_Push_self
        (c.emit (Event.routingQueried bp.id)).store
        (bp.AddConstraint .contraindicated)
      rwa [BundlePack.AddConstraint_id] at hself
    | some ns2 =>
      exact Core.forwardFanout_entry (c.emit (Event.routingQueried bp.id))
        bp ns2 _ q hq hqb

theorem forward_pass_entry (c : Core) (bp : BundlePack)
    (hhop : ∀ hc : HopCount, bp.bundle.hopCount = some hc →
      hc.Increment.IsExceeded = false)
    (hlife : bp.bundle.primaryBlock.IsLifetimeExceeded c.nowTime = false)
    (hage : ∀ a : Nat, bp.bundle.bundleAge = some a →
      a + c.nodeElapsed < bp.bundle.primaryBlock.lifetime) :
    ∃ (c3 : Core) (bp3 : BundlePack) (q : BundlePack),
      c.forward bp = c3.forwardSenders bp3 ∧
      bp3.id = bp.id ∧
      Store.lookupId c3.store bp.id = some q ∧
      q.bundle = bp3.bundle ∧
      (∀ hc : HopCount, bp.bundle.hopCount = some hc →
        bp3.bundle.hopCount = some hc.Increment) := by
  have hPB : ((bp.AddConstraint Constraint.forwardPending).RemoveConstraint
      Constraint.dispatchPending).bundle = bp.bundle := by simp
  simp only [Core.forward, Core.pushStore, Core.mutateBlocks,
    Core.forwardLifetime, Core.forwardAge, Core.UpdateBundleAge]
  cases hhc : bp.bundle.hopCount with
  | some hc =>
    have hhc' : ((bp.AddConstraint Constraint.forwardPending).RemoveConstraint
        Constraint.dispatchPending).bundle.hopCount = some hc := by
      rw [hPB]
      exact hhc
    simp only [hhc']
    rw [if_neg (by simp [hhop hc hhc])]
    rw [if_neg (by simp [hlife])]
    rw [Bundle.bundleAge_hopUpdate]
    cases hba : bp.bundle.bundleAge with
    | some a =>
      have hba' : ((bp.AddConstraint Constraint.forwardPending).RemoveConstraint
          Constraint.dispatchPending).bundle.bundleAge = some a := by
        rw [hPB]
        exact hba
      simp only [hba']
      rw [if_neg (by
        simp only [BundlePack.RemoveConstraint_bundle,
          BundlePack.AddConstraint_bundle]
        have := hage a hba
        omega)]
      refine ⟨_, _, _, rfl, ?_, ?_, rfl, ?_⟩
      · simp [BundlePack.id, Bundle.id]
      · have h1 := Store.lookupId_Push_self c.store
          ((bp.AddConstraint .forwardPending).RemoveConstraint .dispatchPending)
        have h2 := Core.mutate_entry_at
          (Core.pushStore c
            ((bp.AddConstraint .forwardPending).RemoveConstraint .dispatchPending))
          ((bp.AddConstraint .forwardPending).RemoveConstraint .dispatchPending)
          (fun bs => updateBlockData bs HopCountBlockType
            (fun _ => BlockData.hopCountData hc.Increment))
          ((bp.AddConstraint .forwardPending).RemoveConstraint .dispatchPending)
          ((bp.AddConstraint .forwardPending).RemoveConstraint
            .dispatchPending).id
          rfl h1
        have h3 := Core.mutate_entry_at
          ((Core.mutateBlocks (Core.pushStore c
              ((bp.AddConstraint .forwardPending).RemoveConstraint
                .dispatchPending))
            ((bp.AddConstraint .forwardPending).RemoveConstraint
              .dispatchPending)
            (fun bs => updateBlockData bs HopCountBlockType
              (fun _ => BlockData.hopCountData hc.Increment))).1)
          ((Core.mutateBlocks (Core.pushStore c
              ((bp.AddConstraint .forwardPending).RemoveConstraint
                .dispatchPending))
            ((bp.AddConstraint .forwardPending).RemoveConstraint
              .dispatchPending)
            (fun bs => updateBlockData bs HopCountBlockType
              (fun _ => BlockData.hopCountData hc.Increment))).2)
          (fun bs => updateBlockData bs BundleAgeBlockType
            (fun _ => BlockData.bundleAgeData (a + c.nodeElapsed)))
          _
          ((bp.AddConstraint .forwardPending).RemoveConstraint
            .dispatchPending).id
          rfl
          h2
        rw [BundlePack.RemoveConstraint_id, BundlePack.AddConstraint_id] at h3
        exact h3
      · intro hc2 hh2
        cases hh2
        have hb2 := Bundle.hopCount_update
          ((bp.AddConstraint Constraint.forwardPending).RemoveConstraint
            Constraint.dispatchPending).bundle hc hc.Increment hhc'
        have hb3 := Bundle.hopCount_ageUpdate
          (Bundle.mk
            ((bp.AddConstraint Constraint.forwardPending).RemoveConstraint
              Constraint.dispatchPending).bundle.primaryBlock
            (updateBlockData
              ((bp.AddConstraint Constraint.forwardPending).RemoveConstraint
                Constraint.dispatchPending).bundle.canonicalBlocks
              HopCountBlockType
              (fun _ => BlockData.hopCountData hc.Increment)))
          (a + c.nodeElapsed)
        exact hb3.trans hb2
    | none =>
      have hba' : ((bp.AddConstraint Constraint.forwardPending).RemoveConstraint
          Constraint.dispatchPending).bundle.bundleAge = none := by
        rw [hPB]
        exact hba
      simp only [hba']
      refine ⟨_, _, _, rfl, ?_, ?_, rfl, ?_⟩
      · simp [BundlePack.id, Bundle.id]
      · have h1 := Store.lookupId_Push_self c.store
          ((bp.AddConstraint .forwardPending).RemoveConstraint .dispatchPending)
        have h2 := Core.mutate_entry_at
          (Core.pushStore c
            ((bp.AddConstraint .forwardPending).RemoveConstraint .dispatchPending))
          ((bp.AddConstraint .forwardPending).RemoveConstraint .dispatchPending)
          (fun bs => updateBlockData bs HopCountBlockType
            (fun _ => BlockData.hopCountData hc.Increment))
          ((bp.AddConstraint .forwardPending).RemoveConstraint .dispatchPending)
          ((bp.AddConstraint .forwardPending).RemoveConstraint
            .dispatchPending).id
          rfl h1
        rw [BundlePack.RemoveConstraint_id, BundlePack.AddConstraint_id] at h2
        exact h2
      · intro hc2 hh2
        cases hh2
        exact Bundle.hopCount_update
          ((bp.AddConstraint Constraint.forwardPending).RemoveConstraint
            Constraint.dispatchPending).bundle hc hc.Increment hhc'
  | none =>
    have hhc' : ((bp.AddConstraint Constraint.forwardPending).RemoveConstraint
        Constraint.dispatchPending).bundle.hopCount = none := by
      rw [hPB]
      exact hhc
    simp only [hhc']
    rw [if_neg (by simp [hlife])]
    cases hba : bp.bundle.bundleAge with
    | some a =>
      have hba' : ((bp.AddConstraint Constraint.forwardPending).RemoveConstraint
          Constraint.dispatchPending).bundle.bundleAge = some a := by
        rw [hPB]
        exact hba
      simp only [hba']
      rw [if_neg (by
        simp only [BundlePack.RemoveConstraint_bundle,
          BundlePack.AddConstraint_bundle]
        have := hage a hba
        omega)]
      refine ⟨_, _, _, rfl, ?_, ?_, rfl, ?_⟩
      · simp [BundlePack.id, Bundle.id]
      · have h1 := Store.lookupId_Push_self c.store
          ((bp.AddConstraint .forwardPending).RemoveConstraint .dispatchPending)
        have h2 := Core.mutate_entry_at
          (Core.pushStore c
            ((bp.AddConstraint .forwardPending).RemoveConstraint .dispatchPending))
          ((bp.AddConstraint .forwardPending).RemoveConstraint .dispatchPending)
          (fun bs => updateBlockData bs BundleAgeBlockType
            (fun _ => BlockData.bundleAgeData (a + c.nodeElapsed)))
          ((bp.AddConstraint .forwardPending).RemoveConstraint .dispatchPending)
          ((bp.AddConstraint .forwardPending).RemoveConstraint
            .dispatchPending).id
          rfl h1
        rw [BundlePack.RemoveConstraint_id, BundlePack.AddConstraint_id] at h2
        exact h2
      · intro hc2 hh2
        exact Option.noConfusion hh2
    | none =>
      have hba' : ((bp.AddConstraint Constraint.forwardPending).RemoveConstraint
          Constraint.dispatchPending).bundle.bundleAge = none := by
        rw [hPB]
        exact hba
      simp only [hba']
      refine ⟨_, _, _, rfl, by simp, ?_, rfl, ?_⟩
      · have h1 := Store.lookupId_Push_self c.store
          ((bp.AddConstraint .forwardPending).RemoveConstraint .dispatchPending)
        rw [BundlePack.RemoveConstraint_id, BundlePack.AddConstraint_id] at h1
        exact h1
      · intro hc2 hh2
        exact Option.noConfusion hh2

theorem deletionEvents_congr (bp bp2 : BundlePack) (r : StatusReportReason)
    (hpb : bp2.bundle.primaryBlock = bp.bundle.primaryBlock)
    (hid : bp2.id = bp.id) :
    deletionEvents bp2 r = deletionEvents bp r := by
  unfold deletionEvents
  rw [hpb, hid]

/-- The hop-exceeded branch of `forward`: the count is incremented in
place, found exceeded, and the bundle is deleted before the lifetime or
age checks run — the deleted pack carries the incremented count and the
untouched age block. -/
theorem forward_hop_exceeded (c : Core) (bp : BundlePack) (hc : HopCount)
    (hhc : bp.bundle.hopCount = some hc)
    (hex : hc.Increment.IsExceeded = true) :
    ∃ (c2 : Core) (bp2 : BundlePack),
      c.forward bp = c2.bundleDeletion bp2 .hopLimitExceeded ∧
      c2.events = c.events ∧
      bp2.id = bp.id ∧
      bp2.bundle.primaryBlock = bp.bundle.primaryBlock ∧
      bp2.bundle.hopCount = some hc.Increment ∧
      bp2.bundle.bundleAge = bp.bundle.bundleAge := by
  simp only [Core.forward, BundlePack.AddConstraint_bundle,
    BundlePack.RemoveConstraint_bundle, Core.pushStore, Core.mutateBlocks]
  simp only [hhc]
  rw [if_pos hex]
  refine ⟨_, _, rfl, rfl, rfl, rfl, ?_, ?_⟩
  · exact Bundle.hopCount_update bp.bundle hc hc.Increment hhc
  · exact Bundle.bundleAge_hopUpdate bp.bundle hc.Increment

/-- The lifetime branch of `forward`: with the hop check passed, a
lifetime-expired primary block deletes the bundle before the bundle-age
block is updated — the deleted pack still carries the pre-update age. -/
theorem forward_lifetime_expired (c : Core) (bp : BundlePack)
    (hhop : ∀ hc : HopCount, bp.bundle.hopCount = some hc →
      hc.Increment.IsExceeded = false)
    (hlife : bp.bundle.primaryBlock.IsLifetimeExceeded c.nowTime = true) :
    ∃ (c2 : Core) (bp2 : BundlePack),
      c.forward bp = c2.bundleDeletion bp2 .lifetimeExpired ∧
      c2.events = c.events ∧
      bp2.id = bp.id ∧
      bp2.bundle.primaryBlock = bp.bundle.primaryBlock ∧
      bp2.bundle.bundleAge = bp.bundle.bundleAge ∧
      (∀ hc : HopCount, bp.bundle.hopCount = some hc →
        bp2.bundle.hopCount = some hc.Increment) := by
  simp only [Core.forward, BundlePack.AddConstraint_bundle,
    BundlePack.RemoveConstraint_bundle, Core.pushStore, Core.mutateBlocks,
    Core.forwardLifetime]
  cases hhc : bp.bundle.hopCount with
  | some hc =>
    simp only [hhc]
    rw [if_neg (by simp [hhop hc hhc])]
    rw [if_pos hlife]
    refine ⟨_, _, rfl, rfl, rfl, rfl, ?_, ?_⟩
    · exact Bundle.bundleAge_hopUpdate bp.bundle hc.Increment
    · intro hc2 hhc2
      cases hhc2
      exact Bundle.hopCount_update bp.bundle hc hc.Increment hhc
  | none =>
    rw [if_pos hlife]
    refine ⟨_, _, rfl, rfl, by simp, by simp, by simp, ?_⟩
    intro hc2 hhc2
    exact Option.noConfusion hhc2

/-- The age branch of `forward`: with the hop and lifetime checks passed,
an updated age reaching the lifetime deletes the bundle — the deleted pack
carries the updated age. -/
theorem forward_age_expired (c : Core) (bp : BundlePack) (a : Nat)
    (hhop : ∀ hc : HopCount, bp.bundle.hopCount = some hc →
      hc.Increment.IsExceeded = false)
    (hlife : bp.bundle.primaryBlock.IsLifetimeExceeded c.nowTime = false)
    (hba : bp.bundle.bundleAge = some a)
    (hge : a + c.nodeElapsed ≥ bp.bundle.primaryBlock.lifetime) :
    ∃ (c2 : Core) (bp2 : BundlePack),
      c.forward bp = c2.bundleDeletion bp2 .lifetimeExpired ∧
      c2.events = c.events ∧
      bp2.id = bp.id ∧
      bp2.bundle.primaryBlock = bp.bundle.primaryBlock ∧
      bp2.bundle.bundleAge = some (a + c.nodeElapsed) ∧
      (∀ hc : HopCount, bp.bundle.hopCount = some hc →
        bp2.bundle.hopCount = some hc.Increment) := by
  simp only [Core.forward, BundlePack.AddConstraint_bundle,
    BundlePack.RemoveConstraint_bundle, Core.pushStore, Core.mutateBlocks,
    Core.forwardLifetime, Core.forwardAge, Core.UpdateBundleAge]
  cases hhc : bp.bundle.hopCount with
  | some hc =>
    simp only [hhc]
    rw [if_neg (by simp [hhop hc hhc])]
    rw [if_neg (by simp [hlife])]
    rw [Bundle.bundleAge_hopUpdate]
    simp only [hba]
    rw [if_pos hge]
    refine ⟨_, _, rfl, rfl, rfl, rfl, ?_, ?_⟩
    · exact Bundle.bundleAge_ageUpdate _ a _
        (Bundle.bundleAge_hopUpdate bp.bundle hc.Increment |>.trans hba)
    · intro hc2 hhc2
      cases hhc2
      exact (Bundle.hopCount_ageUpdate _ _).trans
        (Bundle.hopCount_update bp.bundle hc hc.Increment hhc)
  | none =>
    rw [if_neg (by simp [hlife])]
    simp only [hba]
    rw [if_pos hge]
    refine ⟨_, _, rfl, rfl, rfl, rfl, ?_, ?_⟩
    · exact Bundle.bundleAge_ageUpdate bp.bundle a _ hba
    · intro hc2 hhc2
      exact Option.noConfusion hhc2

theorem Core.forwardSenders_entry_at (c : Core) (bp : BundlePack)
    (q : BundlePack) (i : BundleID) (hi : bp.id = i)
    (hq : Store.lookupId c.store i = some q)
    (hqb : q.bundle = bp.bundle) :
    ∃ p : BundlePack,
      Store.lookupId (c.forwardSenders bp).store i = some p ∧
      p.bundle = bp.bundle := by
  cases hi
  exact Core.forwardSenders_entry c bp q hq hqb

/-- A single `forward` always leaves, at the pack's identity, a store entry
whose hop-count block carries the incremented count — through either of the
deletion branches (purged pack, mutated bundle shared by pointer) or the
sender fan-out. -/
theorem forward_store_hop (c : Core) (bp : BundlePack) (hc : HopCount)
    (hhc : bp.bundle.hopCount = some hc) :
    ∃ p : BundlePack,
      Store.lookupId (c.forward bp).store bp.id = some p ∧
      p.bundle.hopCount = some hc.Increment := by
  by_cases hex : hc.Increment.IsExceeded = true
  · obtain ⟨c2, bp2, heq, hev, hid, hpb, hh, hba⟩ :=
      forward_hop_exceeded c bp hc hhc hex
    refine ⟨bp2.PurgeConstraints, ?_, ?_⟩
    · rw [heq, Core.bundleDeletion_store]
      have hself := Store.lookupId_Push_self c2.store bp2.PurgeConstraints
      rw [BundlePack.PurgeConstraints_id, hid] at hself
      exact hself
    · simp only [BundlePack.PurgeConstraints_bundle]
      exact hh
  · have hexf : hc.Increment.IsExceeded = false := by
      cases h2 : hc.Increment.IsExceeded
      · rfl
      · exact absurd h2 hex
    have hhop : ∀ hc2 : HopCount, bp.bundle.hopCount = some hc2 →
        hc2.Increment.IsExceeded = false := by
      intro hc2 hh2
      rw [hhc] at hh2
      cases hh2
      exact hexf
    by_cases hlife : bp.bundle.primaryBlock.IsLifetimeExceeded c.nowTime = true
    · obtain ⟨c2, bp2, heq, hev, hid, hpb, hba, hh⟩ :=
        forward_lifetime_expired c bp hhop hlife
      refine ⟨bp2.PurgeConstraints, ?_, ?_⟩
      · rw [heq, Core.bundleDeletion_store]
        have hself := Store.lookupId_Push_self c2.store bp2.PurgeConstraints
        rw [BundlePack.PurgeConstraints_id, hid] at hself
        exact hself
      · simp only [BundlePack.PurgeConstraints_bundle]
        exact hh hc hhc
    · have hlifef : bp.bundle.primaryBlock.IsLifetimeExceeded c.nowTime
          = false := by
        cases h2 : bp.bundle.primaryBlock.IsLifetimeExceeded c.nowTime
        · rfl
        · exact absurd h2 hlife
      cases hba : bp.bundle.bundleAge with
      | some a =>
        by_cases hge : a + c.nodeElapsed ≥ bp.bundle.primaryBlock.lifetime
        · obtain ⟨c2, bp2, heq, hev, hid, hpb, hba2, hh⟩ :=
            forward_age_expired c bp a hhop hlifef hba hge
          refine ⟨bp2.PurgeConstraints, ?_, ?_⟩
          · rw [heq, Core.bundleDeletion_store]
            have hself := Store.lookupId_Push_self c2.store bp2.PurgeConstraints
            rw [BundlePack.PurgeConstraints_id, hid] at hself
            exact hself
          · simp only [BundlePack.PurgeConstraints_bundle]
            exact hh hc hhc
        · have hage : ∀ a2 : Nat, bp.bundle.bundleAge = some a2 →
              a2 + c.nodeElapsed < bp.bundle.primaryBlock.lifetime := by
            intro a2 h2
            rw [hba] at h2
            cases h2
            omega
          obtain ⟨c3, bp3, q, heq, hid3, hql, hqb, hh⟩ :=
            forward_pass_entry c bp hhop hlifef hage
          obtain ⟨p, hp, hpb⟩ :=
            Core.forwardSenders_entry_at c3 bp3 q bp.id hid3 hql hqb
          refine ⟨p, ?_, ?_⟩
          · rw [heq]
            exact hp
          · rw [hpb]
            exact hh hc hhc
      | none =>
        have hage : ∀ a2 : Nat, bp.bundle.bundleAge = some a2 →
            a2 + c.nodeElapsed < bp.bundle.primaryBlock.lifetime := by
          intro a2 h2
          rw [hba] at h2
          exact Option.noConfusion h2
        obtain ⟨c3, bp3, q, heq, hid3, hql, hqb, hh⟩ :=
          forward_pass_entry c bp hhop hlifef hage
        obtain ⟨p, hp, hpb⟩ :=
          Core.forwardSenders_entry_at c3 bp3 q bp.id hid3 hql hqb
        refine ⟨p, ?_, ?_⟩
        · rw [heq]
          exact hp
        · rw [hpb]
          exact hh hc hhc

theorem receiveWalk_done (bp : BundlePack) (rev : List CanonicalBlock) :
    ∀ (c : Core) (suffix : List CanonicalBlock),
      (∀ cb ∈ rev, isKnownBlockType cb.blockType = false →
        hasFlag cb.blockControlFlags DeleteBundle = false) →
      ∃ c2 : Core, receiveWalk bp c rev suffix
        = (c2, .walkDone (rev.reverse.filter keepBlock ++ suffix)) := by
  induction rev with
  | nil =>
    intro c suffix h
    exact ⟨c, by simp [receiveWalk]⟩
  | cons cb rest ih =>
    intro c suffix h
    simp only [receiveWalk]
    by_cases hk : isKnownBlockType cb.blockType = true
    · rw [if_pos hk]
      obtain ⟨c2, hc2⟩ := ih c (cb :: suffix)
        (fun x hx => h x (List.mem_cons_of_mem _ hx))
      refine ⟨c2, ?_⟩
      rw [hc2]
      rw [List.reverse_cons, List.filter_append]
      simp [keepBlock, hk]
    · rw [if_neg hk]
      have hkf : isKnownBlockType cb.blockType = false := by
        cases hkk : isKnownBlockType cb.blockType
        · rfl
        · exact absurd hkk hk
      have hd : hasFlag cb.blockControlFlags DeleteBundle = false :=
        h cb (List.mem_cons_self _ _) hkf
      rw [if_neg (by simp [hd])]
      by_cases hr : hasFlag cb.blockControlFlags RemoveBlock = true
      · rw [if_pos hr]
        obtain ⟨c2, hc2⟩ := ih
          (if hasFlag cb.blockControlFlags StatusReportBlock = true then
            c.SendStatusReport bp .receivedBundle .blockUnintelligible else c)
          suffix (fun x hx => h x (List.mem_cons_of_mem _ hx))
        refine ⟨c2, ?_⟩
        rw [hc2]
        rw [List.reverse_cons, List.filter_append]
        simp [keepBlock, hkf, hr]
      · rw [if_neg hr]
        obtain ⟨c2, hc2⟩ := ih
          (if hasFlag cb.blockControlFlags StatusReportBlock = true then
            c.SendStatusReport bp .receivedBundle .blockUnintelligible else c)
          (cb :: suffix) (fun x hx => h x (List.mem_cons_of_mem _ hx))
        refine ⟨c2, ?_⟩
        rw [hc2]
        rw [List.reverse_cons, List.filter_append]
        have hrf : hasFlag cb.blockControlFlags RemoveBlock = false := by
          cases hrr : hasFlag cb.blockControlFlags RemoveBlock
          · rfl
          · exact absurd hrr hr
        simp [keepBlock, hkf, hrf]

/-- C4: the canonical-block walk of `receive` goes from the highest index
down to the lowest, and when no unknown block requests bundle deletion it
excises exactly the unknown-typed blocks whose flags request removal: the
survivors are the original sequence filtered, every other block unchanged
and in order. -/
theorem receive_reverse_walk_removal (c : Core) (bp : BundlePack)
    (bs : List CanonicalBlock)
    (h : ∀ cb ∈ bs, isKnownBlockType cb.blockType = false →
      hasFlag cb.blockControlFlags DeleteBundle = false) :
    ∃ c2 : Core, receiveWalk bp c bs.reverse []
      = (c2, .walkDone (bs.filter keepBlock)) := by
  obtain ⟨c2, hc2⟩ := receiveWalk_done bp bs.reverse c []
    (fun x hx => h x (List.mem_reverse.mp hx))
  rw [List.reverse_reverse, List.append_nil] at hc2
  exact ⟨c2, hc2⟩

theorem receive_reverse_walk_removal_witness :
    (∀ cb ∈ [unknownRemovable 5, payloadSampleBlock, unknownRemovable 6],
      isKnownBlockType cb.blockType = false →
      hasFlag cb.blockControlFlags DeleteBundle = false) ∧
    ∃ c2 : Core, receiveWalk samplePack sampleCore
        [unknownRemovable 5, payloadSampleBlock, unknownRemovable 6].reverse []
      = (c2, .walkDone [payloadSampleBlock]) := by
  refine ⟨by decide, ?_⟩
  obtain ⟨c2, hc2⟩ := receive_reverse_walk_removal sampleCore samplePack
    [unknownRemovable 5, payloadSampleBlock, unknownRemovable 6] (by decide)
  exact ⟨c2, hc2.trans (by rfl)⟩

/-- C7: when a status report is inspected, a store query yielding anything
but exactly one subject pack leaves the node untouched; with exactly one
match, the state changes only when a *DeliveredBundle* item is present —
then the subject's constraints are purged and the pack pushed — while
*ReceivedBundle*, *ForwardedBundle* and *DeletedBundle* items change
nothing. -/
theorem inspectStatusReport_spec (c : Core) (ar : AdministrativeRecord) :
    ((∀ bp : BundlePack, QueryFromStatusReport c.store ar.content ≠ [bp]) →
      c.inspectStatusReport ar = c) ∧
    (∀ bp : BundlePack, QueryFromStatusReport c.store ar.content = [bp] →
      c.inspectStatusReport ar =
        if StatusInformation.deliveredBundle ∈ ar.content.statusInformations
        then c.pushStore bp.PurgeConstraints else c) :=
  ⟨fun h => Core.inspect_eq_of_not_single c ar h,
    fun bp h => Core.inspect_eq_single c ar bp h⟩

theorem inspectStatusReport_spec_witness :
    (sampleCore.inspectStatusReport sampleAdminRecord = sampleCore) ∧
    (QueryFromStatusReport sampleCoreWithPack.store sampleAdminRecord.content
      = [samplePack]) ∧
    (sampleCoreWithPack.inspectStatusReport sampleAdminRecord =
      if StatusInformation.deliveredBundle
          ∈ sampleAdminRecord.content.statusInformations
      then sampleCoreWithPack.pushStore samplePack.PurgeConstraints
      else sampleCoreWithPack) :=
  ⟨(inspectStatusReport_spec sampleCore sampleAdminRecord).1
      (fun bp h => List.noConfusion h),
    rfl,
    (inspectStatusReport_spec sampleCoreWithPack sampleAdminRecord).2
      samplePack rfl⟩

theorem IdKeeperUpdate_sourceNode (k : List (EndpointID × Nat)) (b : Bundle) :
    (IdKeeperUpdate k b).2.primaryBlock.sourceNode
      = b.primaryBlock.sourceNode := by
  simp only [IdKeeperUpdate]
  split
  · rfl
  · split <;> rfl

/-- C8: a bundle entering through `transmit` whose source is neither
`dtn:none` nor an endpoint of this node takes the deletion path with
reason *NoInformation*: the node state is exactly the deletion of the
freshly pushed pack, the appended events are the deletion events (the
*DeletedBundle* report appears if and only if the primary block requests
deletion status), and the store ends up holding the purged pack — dispatch
is never entered. -/
theorem transmit_invalid_source (c : Core) (bp : BundlePack)
    (hs : bp.bundle.primaryBlock.sourceNode ≠ DtnNone)
    (he : c.HasEndpoint bp.bundle.primaryBlock.sourceNode = false) :
    c.transmit bp
      = ({ c with idKeeper := (IdKeeperUpdate c.idKeeper bp.bundle).1 }.pushStore
          (({ bp with bundle := (IdKeeperUpdate c.idKeeper bp.bundle).2 } : BundlePack).AddConstraint
            .dispatchPending)).bundleDeletion
          (({ bp with bundle := (IdKeeperUpdate c.idKeeper bp.bundle).2 } : BundlePack).AddConstraint
            .dispatchPending) .noInformation ∧
    (c.transmit bp).events = c.events ++
      deletionEvents
        (({ bp with bundle := (IdKeeperUpdate c.idKeeper bp.bundle).2 } : BundlePack).AddConstraint
          .dispatchPending) .noInformation ∧
    Store.lookupId (c.transmit bp).store
        ({ bp with bundle := (IdKeeperUpdate c.idKeeper bp.bundle).2 } : BundlePack).id
      = some ((({ bp with bundle := (IdKeeperUpdate c.idKeeper bp.bundle).2 } : BundlePack).AddConstraint
          .dispatchPending).PurgeConstraints) := by
  have hsrc2 : (({ bp with bundle := (IdKeeperUpdate c.idKeeper bp.bundle).2 } : BundlePack).AddConstraint
      .dispatchPending).bundle.primaryBlock.sourceNode
      = bp.bundle.primaryBlock.sourceNode := by
    rw [BundlePack.AddConstraint_bundle]
    exact IdKeeperUpdate_sourceNode c.idKeeper bp.bundle
  have hcond : ((({ bp with bundle := (IdKeeperUpdate c.idKeeper bp.bundle).2 } : BundlePack).AddConstraint
        .dispatchPending).bundle.primaryBlock.sourceNode != DtnNone &&
      !(({ c with idKeeper := (IdKeeperUpdate c.idKeeper bp.bundle).1 }.pushStore
          (({ bp with bundle := (IdKeeperUpdate c.idKeeper bp.bundle).2 } : BundlePack).AddConstraint
            .dispatchPending)).HasEndpoint
        (({ bp with bundle := (IdKeeperUpdate c.idKeeper bp.bundle).2 } : BundlePack).AddConstraint
          .dispatchPending).bundle.primaryBlock.sourceNode)) = true := by
    rw [hsrc2]
    have hHE : ({ c with idKeeper := (IdKeeperUpdate c.idKeeper bp.bundle).1 }.pushStore
        (({ bp with bundle := (IdKeeperUpdate c.idKeeper bp.bundle).2 } : BundlePack).AddConstraint
          .dispatchPending)).HasEndpoint bp.bundle.primaryBlock.sourceNode
        = c.HasEndpoint bp.bundle.primaryBlock.sourceNode := rfl
    rw [hHE, he]
    simp [bne_iff_ne, hs]
  have hmain : c.transmit bp
      = ({ c with idKeeper := (IdKeeperUpdate c.idKeeper bp.bundle).1 }.pushStore
          (({ bp with bundle := (IdKeeperUpdate c.idKeeper bp.bundle).2 } : BundlePack).AddConstraint
            .dispatchPending)).bundleDeletion
          (({ bp with bundle := (IdKeeperUpdate c.idKeeper bp.bundle).2 } : BundlePack).AddConstraint
            .dispatchPending) .noInformation := by
    unfold Core.transmit
    exact if_pos hcond
  refine ⟨hmain, ?_, ?_⟩
  · rw [hmain, Core.bundleDeletion_events]
    rfl
  · rw [hmain, Core.bundleDeletion_store]
    have hself := Store.lookupId_Push_self
      ({ c with idKeeper := (IdKeeperUpdate c.idKeeper bp.bundle).1 }.pushStore
        (({ bp with bundle := (IdKeeperUpdate c.idKeeper bp.bundle).2 } : BundlePack).AddConstraint
          .dispatchPending)).store
      ((({ bp with bundle := (IdKeeperUpdate c.idKeeper bp.bundle).2 } : BundlePack).AddConstraint
        .dispatchPending).PurgeConstraints)
    rwa [BundlePack.PurgeConstraints_id, BundlePack.AddConstraint_id] at hself

theorem transmit_invalid_source_witness :
    (samplePack.bundle.primaryBlock.sourceNode ≠ DtnNone) ∧
    (sampleCore.HasEndpoint samplePack.bundle.primaryBlock.sourceNode = false) ∧
    (sampleCore.transmit samplePack).events = sampleCore.events ++
      deletionEvents
        (({ samplePack with
            bundle := (IdKeeperUpdate sampleCore.idKeeper samplePack.bundle).2 } : BundlePack).AddConstraint
          .dispatchPending) .noInformation := by
  refine ⟨by decide, by decide, ?_⟩
  exact (transmit_invalid_source sampleCore samplePack (by decide) (by decide)).2.1

/-- C1: the forward stage runs its checks in this order: the hop-count
block is incremented first and an exceeded count deletes the bundle with
*HopLimitExceeded*; second the primary block's lifetime-expired predicate
deletes with *LifetimeExpired*, before the bundle-age block is touched (the
stored pack still carries the pre-update age, which pins the ordering);
third the bundle-age block is updated and an updated age at or above the
lifetime deletes with *LifetimeExpired*; each deletion appends exactly the
deletion events, so the stage stops before any sender or the routing
adapter is consulted. -/
theorem forward_check_order (c : Core) (bp : BundlePack) :
    (∀ hc : HopCount, bp.bundle.hopCount = some hc →
      hc.Increment.IsExceeded = true →
      (c.forward bp).events = c.events ++ deletionEvents bp .hopLimitExceeded ∧
      ∃ p : BundlePack, Store.lookupId (c.forward bp).store bp.id = some p ∧
        p.constraints = [] ∧ p.bundle.hopCount = some hc.Increment ∧
        p.bundle.bundleAge = bp.bundle.bundleAge) ∧
    ((∀ hc : HopCount, bp.bundle.hopCount = some hc →
        hc.Increment.IsExceeded = false) →
      bp.bundle.primaryBlock.IsLifetimeExceeded c.nowTime = true →
      (c.forward bp).events = c.events ++ deletionEvents bp .lifetimeExpired ∧
      ∃ p : BundlePack, Store.lookupId (c.forward bp).store bp.id = some p ∧
        p.constraints = [] ∧ p.bundle.bundleAge = bp.bundle.bundleAge) ∧
    ((∀ hc : HopCount, bp.bundle.hopCount = some hc →
        hc.Increment.IsExceeded = false) →
      bp.bundle.primaryBlock.IsLifetimeExceeded c.nowTime = false →
      ∀ a : Nat, bp.bundle.bundleAge = some a →
      a + c.nodeElapsed ≥ bp.bundle.primaryBlock.lifetime →
      (c.forward bp).events = c.events ++ deletionEvents bp .lifetimeExpired ∧
      ∃ p : BundlePack, Store.lookupId (c.forward bp).store bp.id = some p ∧
        p.constraints = [] ∧ p.bundle.bundleAge = some (a + c.nodeElapsed)) := by
  refine ⟨?_, ?_, ?_⟩
  · intro hc hhc hex
    obtain ⟨c2, bp2, heq, hev, hid, hpb, hh, hba⟩ :=
      forward_hop_exceeded c bp hc hhc hex
    constructor
    · rw [heq, Core.bundleDeletion_events, hev,
        deletionEvents_congr bp bp2 _ hpb hid]
    · refine ⟨bp2.PurgeConstraints, ?_, rfl, ?_, ?_⟩
      · rw [heq, Core.bundleDeletion_store]
        have hself := Store.lookupId_Push_self c2.store bp2.PurgeConstraints
        rw [BundlePack.PurgeConstraints_id, hid] at hself
        exact hself
      · rw [BundlePack.PurgeConstraints_bundle]
        exact hh
      · rw [BundlePack.PurgeConstraints_bundle]
        exact hba
  · intro hhop hlife
    obtain ⟨c2, bp2, heq, hev, hid, hpb, hba, _⟩ :=
      forward_lifetime_expired c bp hhop hlife
    constructor
    · rw [heq, Core.bundleDeletion_events, hev,
        deletionEvents_congr bp bp2 _ hpb hid]
    · refine ⟨bp2.PurgeConstraints, ?_, rfl, ?_⟩
      · rw [heq, Core.bundleDeletion_store]
        have hself := Store.lookupId_Push_self c2.store bp2.PurgeConstraints
        rw [BundlePack.PurgeConstraints_id, hid] at hself
        exact hself
      · rw [BundlePack.PurgeConstraints_bundle]
        exact hba
  · intro hhop hlife a hba hge
    obtain ⟨c2, bp2, heq, hev, hid, hpb, hba2, _⟩ :=
      forward_age_expired c bp a hhop hlife hba hge
    constructor
    · rw [heq, Core.bundleDeletion_events, hev,
        deletionEvents_congr bp bp2 _ hpb hid]
    · refine ⟨bp2.PurgeConstraints, ?_, rfl, ?_⟩
      · rw [heq, Core.bundleDeletion_store]
        have hself := Store.lookupId_Push_self c2.store bp2.PurgeConstraints
        rw [BundlePack.PurgeConstraints_id, hid] at hself
        exact hself
      · rw [BundlePack.PurgeConstraints_bundle]
        exact hba2

theorem forward_check_order_witness :
    (hopBundle.hopCount = some ⟨1, 1⟩ ∧
      (⟨1, 1⟩ : HopCount).Increment.IsExceeded = true ∧
      (sampleCore.forward hopPack).events
        = sampleCore.events ++ deletionEvents hopPack .hopLimitExceeded ∧
      ∃ p : BundlePack,
        Store.lookupId (sampleCore.forward hopPack).store hopPack.id = some p ∧
        p.constraints = [] ∧
        p.bundle.hopCount = some (⟨1, 1⟩ : HopCount).Increment ∧
        p.bundle.bundleAge = hopBundle.bundleAge) ∧
    (samplePrimary.IsLifetimeExceeded expiredCore.nowTime = true ∧
      (expiredCore.forward samplePack).events
        = expiredCore.events ++ deletionEvents samplePack .lifetimeExpired ∧
      ∃ p : BundlePack,
        Store.lookupId (expiredCore.forward samplePack).store samplePack.id
          = some p ∧
        p.constraints = [] ∧ p.bundle.bundleAge = sampleBundle.bundleAge) ∧
    (agedBundle.bundleAge = some 10 ∧
      10 + agedCore.nodeElapsed ≥ samplePrimary.lifetime ∧
      (agedCore.forward agedPack).events
        = agedCore.events ++ deletionEvents agedPack .lifetimeExpired ∧
      ∃ p : BundlePack,
        Store.lookupId (agedCore.forward agedPack).store agedPack.id = some p ∧
        p.constraints = [] ∧
        p.bundle.bundleAge = some (10 + agedCore.nodeElapsed)) := by
  refine ⟨⟨by decide, by decide, ?_⟩, ⟨by decide, ?_⟩, ⟨by decide, by decide, ?_⟩⟩
  · exact (forward_check_order sampleCore hopPack).1 ⟨1, 1⟩ (by decide) (by decide)
  · exact (forward_check_order expiredCore samplePack).2.1
      (fun hc h => Option.noConfusion h) (by decide)
  · exact (forward_check_order agedCore agedPack).2.2
      (fun hc h => Option.noConfusion h) (by decide) 10 (by decide) (by decide)

/-- C2: for a bundle that carries a hop-count block with initial count
`cnt`, the hop-count block of the pack stored in the store after the n-th
pass through the forward stage carries count `cnt + n` — each forward
increments the persisted count by exactly one, whichever branch of the
stage it then takes. -/
theorem forward_iter_hop_count (c : Core) (bp : BundlePack) (l cnt : Nat)
    (hhc : bp.bundle.hopCount = some ⟨l, cnt⟩) (n : Nat) :
    ((c.forwardIter bp n).2).bundle.hopCount = some ⟨l, cnt + n⟩ := by
  induction n with
  | zero =>
    simpa [Core.forwardIter] using hhc
  | succ n ih =>
    obtain ⟨p, hp, hph⟩ := forward_store_hop
      (c.forwardIter bp n).1 (c.forwardIter bp n).2 ⟨l, cnt + n⟩ ih
    simp only [Core.forwardIter]
    rw [hp]
    exact hph

theorem forward_iter_hop_count_witness :
    hopBundle.hopCount = some ⟨1, 1⟩ ∧
    ((sampleCore.forwardIter hopPack 2).2).bundle.hopCount
      = some ⟨1, 1 + 2⟩ :=
  ⟨by decide, forward_iter_hop_count sampleCore hopPack 1 1 (by decide) 2⟩

/-- C6: when the direct-delivery lookup returns senders, the forward stage
uses them without querying the routing adapter, attempts each of them, and
— delete-after-send being implicitly true — on at least one successful
send purges the pack's constraints and pushes it, leaving the stored pack
GC-eligible. -/
theorem forward_direct_delivery (c : Core) (bp : BundlePack) (ns : List Sender)
    (hhop : ∀ hc : HopCount, bp.bundle.hopCount = some hc →
      hc.Increment.IsExceeded = false)
    (hlife : bp.bundle.primaryBlock.IsLifetimeExceeded c.nowTime = false)
    (hage : ∀ a : Nat, bp.bundle.bundleAge = some a →
      a + c.nodeElapsed < bp.bundle.primaryBlock.lifetime)
    (hdir : c.senderForDestination bp.bundle.primaryBlock.destination = some ns)
    (hok : ns.any (fun n => !n.failsSend) = true) :
    (c.forward bp).events.filter isRoutingQuery
      = c.events.filter isRoutingQuery ∧
    (∀ n ∈ ns, Event.sendAttempt n.address (!n.failsSend)
      ∈ (c.forward bp).events) ∧
    (∃ p : BundlePack, Store.lookupId (c.forward bp).store bp.id = some p ∧
      p.constraints = []) := by
  obtain ⟨c3, bp3, heq, hsend, hev, _, hpb, hid⟩ :=
    forward_to_senders c bp hhop hlife hage
  have hdir3 : c3.senderForDestination bp3.bundle.primaryBlock.destination
      = some ns := by
    unfold Core.senderForDestination at hdir ⊢
    rw [hsend, hpb]
    exact hdir
  obtain ⟨hevents, hlookup, _⟩ := forwardSenders_direct c3 bp3 ns hdir3 hok
  refine ⟨?_, ?_, ?_⟩
  · rw [heq, hevents, hev]
    rw [List.filter_append, List.filter_append, flatten_sendEvents_no_routing]
    have hrep : (if hasFlag bp3.bundle.primaryBlock.bundleControlFlags
          StatusRequestForward = true
        then [Event.statusReportSent bp3.id .forwardedBundle .noInformation]
        else []).filter isRoutingQuery = [] := by
      split <;> simp [isRoutingQuery]
    rw [hrep]
    simp
  · intro n hn
    rw [heq, hevents]
    have h1 : Event.sendAttempt n.address (!n.failsSend)
        ∈ (ns.map sendEvents).flatten :=
      List.mem_flatten.mpr ⟨sendEvents n, List.mem_map.mpr ⟨n, hn, rfl⟩,
        sendEvents_mem_attempt n⟩
    exact List.mem_append_left _ (List.mem_append_right _ h1)
  · refine ⟨bp3.PurgeConstraints, ?_, rfl⟩
    rw [heq, ← hid]
    exact hlookup

theorem forward_direct_delivery_witness :
    (sampleCoreOk.senderForDestination
        samplePack.bundle.primaryBlock.destination = some [okSender]) ∧
    ([okSender].any (fun n => !n.failsSend) = true) ∧
    (sampleCoreOk.forward samplePack).events.filter isRoutingQuery
      = sampleCoreOk.events.filter isRoutingQuery ∧
    (∀ n ∈ [okSender], Event.sendAttempt n.address (!n.failsSend)
      ∈ (sampleCoreOk.forward samplePack).events) ∧
    (∃ p : BundlePack,
      Store.lookupId (sampleCoreOk.forward samplePack).store samplePack.id
        = some p ∧ p.constraints = []) := by
  refine ⟨by decide, by decide, ?_⟩
  exact forward_direct_delivery sampleCoreOk samplePack [okSender]
    (fun hc h => Option.noConfusion h) (by decide)
    (fun a h => Option.noConfusion h) (by decide) (by decide)

/-- C5: when a sender's send fails during the fan-out, the pipeline closes
that sender, deregisters it and then registers a fresh instance — a new
generation — constructed at the same address, in that order; with a single
failing candidate the pack ends the stage carrying the *Contraindicated*
constraint. -/
theorem forward_send_failure_restart (c : Core) (bp : BundlePack) (n : Sender)
    (hhop : ∀ hc : HopCount, bp.bundle.hopCount = some hc →
      hc.Increment.IsExceeded = false)
    (hlife : bp.bundle.primaryBlock.IsLifetimeExceeded c.nowTime = false)
    (hage : ∀ a : Nat, bp.bundle.bundleAge = some a →
      a + c.nodeElapsed < bp.bundle.primaryBlock.lifetime)
    (hdir : c.senderForDestination bp.bundle.primaryBlock.destination = some [n])
    (hfail : n.failsSend = true) :
    (c.forward bp).events = c.events ++
      [Event.sendAttempt n.address false, Event.senderClosed n.address,
        Event.senderRemoved n.address, Event.senderRegistered n.address] ∧
    (c.forward bp).senders
      = (c.senders.filter (fun s => s != n)) ++ [freshSender n] ∧
    (freshSender n).address = n.address ∧
    freshSender n ≠ n ∧
    (∃ p : BundlePack, Store.lookupId (c.forward bp).store bp.id = some p ∧
      Constraint.contraindicated ∈ p.constraints) := by
  obtain ⟨c3, bp3, heq, hsend, hev, _, hpb, hid⟩ :=
    forward_to_senders c bp hhop hlife hage
  have hdir3 : c3.senderForDestination bp3.bundle.primaryBlock.destination
      = some [n] := by
    unfold Core.senderForDestination at hdir ⊢
    rw [hsend, hpb]
    exact hdir
  obtain ⟨he, hs, hl⟩ := forwardSenders_direct_fail c3 bp3 n hdir3 hfail
  refine ⟨?_, ?_, rfl, ?_, ?_⟩
  · rw [heq, he, hev]
  · rw [heq, hs, hsend]
  · intro hcontra
    have hg := congrArg Sender.generation hcontra
    simp [freshSender] at hg
  · refine ⟨bp3.AddConstraint .contraindicated, ?_,
      BundlePack.mem_AddConstraint_self _ _⟩
    rw [heq, ← hid]
    exact hl

theorem forward_send_failure_restart_witness :
    (sampleCoreFail.senderForDestination
        samplePack.bundle.primaryBlock.destination = some [failSender]) ∧
    (failSender.failsSend = true) ∧
    (sampleCoreFail.forward samplePack).events = sampleCoreFail.events ++
      [Event.sendAttempt failSender.address false,
        Event.senderClosed failSender.address,
        Event.senderRemoved failSender.address,
        Event.senderRegistered failSender.address] ∧
    (sampleCoreFail.forward samplePack).senders
      = (sampleCoreFail.senders.filter (fun s => s != failSender))
        ++ [freshSender failSender] ∧
    (freshSender failSender).address = failSender.address ∧
    freshSender failSender ≠ failSender ∧
    (∃ p : BundlePack,
      Store.lookupId (sampleCoreFail.forward samplePack).store samplePack.id
        = some p ∧ Constraint.contraindicated ∈ p.constraints) := by
  refine ⟨by decide, by decide, ?_⟩
  exact forward_send_failure_restart sampleCoreFail samplePack failSender
    (fun hc h => Option.noConfusion h) (by decide)
    (fun a h => Option.noConfusion h) (by decide) (by decide)

theorem builder_build_spec_witness :
    defaultReportBuilder.errMsg = none ∧
    ((defaultReportBuilder.primary.sourceNode = default ∨
        defaultReportBuilder.primary.destination = default) →
      ∃ e, defaultReportBuilder.Build = .error e) ∧
    (∀ b : Bundle, defaultReportBuilder.Build = .ok b →
      defaultReportBuilder.primary.reportTo = default →
      b.primaryBlock.reportTo = defaultReportBuilder.primary.sourceNode) := by
  refine ⟨rfl, ?_⟩
  exact builder_build_spec defaultReportBuilder rfl

end Dtn7
